import Mathlib

/-!
Verification development for the Amanuensis log-ingestion core.

The Rust sources are shallowly embedded: strings are lists of characters
(abbreviated Str), byte buffers are lists of Nat below 256, SQLite rows are
records in association lists keyed the way the schema keys them, and the
scan transaction is explicit state passing with rollback modelled as
returning the pre-scan state.  Functions keep the source names where Lean
allows it.  Definitions translated from files that are absent from the
source tree (the pattern table of the line classifier, which exists only in
an earlier sibling crate) carry doc comments that start with the words
Modelled from the spec.
-/

namespace Amanuensis

/-- Character-list strings: the embedding of Rust str slices. -/
abbrev Str := List Char

/-- Convert a Lean string literal to the Str embedding. -/
def str (s : String) : Str := s.data

/-- Remove the pattern from the front of a string, if it is a prefix. -/
def stripPre? : Str → Str → Option Str
  | [], s => some s
  | _ :: _, [] => none
  | p :: ps, c :: cs => if p = c then stripPre? ps cs else none

/-- Boolean prefix test. -/
def beginsWith (p s : Str) : Bool := (stripPre? p s).isSome

/-- Remove the pattern from the end of a string, if it is a suffix. -/
def stripSuf? (p s : Str) : Option Str :=
  (stripPre? p.reverse s.reverse).map List.reverse

/-- Boolean suffix test. -/
def endsWith (p s : Str) : Bool := (stripSuf? p s).isSome

/-- Drop everything up to and including the first occurrence of the pattern. -/
def dropThrough? (p : Str) : Str → Option Str
  | [] => stripPre? p []
  | c :: cs =>
    match stripPre? p (c :: cs) with
    | some r => some r
    | none => dropThrough? p cs

/-- Split at the first occurrence of the pattern, dropping the pattern. -/
def splitFirst? (p : Str) : Str → Option (Str × Str)
  | [] => (stripPre? p []).map (fun r => ([], r))
  | c :: cs =>
    match stripPre? p (c :: cs) with
    | some r => some ([], r)
    | none => (splitFirst? p cs).map (fun q => (c :: q.1, q.2))

/-- Boolean substring test. -/
def hasInfix (p s : Str) : Bool := (dropThrough? p s).isSome

/-- Capture the non-empty middle between a mandatory head and tail. -/
def between? (pre suf m : Str) : Option Str :=
  match stripPre? pre m with
  | none => none
  | some r =>
    match stripSuf? suf r with
    | none => none
    | some c => if c.isEmpty then none else some c

/-- Numeric value of a digit string; none when empty or not all digits. -/
def parseNat? (s : Str) : Option Nat :=
  if s.isEmpty then none
  else if s.all Char.isDigit then
    some (s.foldl (fun acc c => acc * 10 + (c.toNat - 48)) 0)
  else none

/-- Lower-case one ASCII letter, leaving every other character unchanged. -/
def asciiLower (c : Char) : Char :=
  if 'A' ≤ c ∧ c ≤ 'Z' then Char.ofNat (c.toNat + 32) else c

/-- Upper-case one ASCII letter, leaving every other character unchanged. -/
def asciiUpper (c : Char) : Char :=
  if 'a' ≤ c ∧ c ≤ 'z' then Char.ofNat (c.toNat - 32) else c

/-- Embedding of eq_ignore_ascii_case from the Rust standard library. -/
def eq_ignore_ascii_case (a b : Str) : Bool :=
  decide (a.map asciiLower = b.map asciiLower)

/-- Embedding of str::trim (leading and trailing whitespace removed). -/
def trimStr (s : Str) : Str :=
  ((s.dropWhile Char.isWhitespace).reverse.dropWhile Char.isWhitespace).reverse

/-- The defeat verbs of parser::events::KillVerb. -/
inductive KillVerb where
  | killed
  | slaughtered
  | vanquished
  | dispatched
deriving DecidableEq, Repr

/-- The loot categories of parser::events::LootType. -/
inductive LootType where
  | fur
  | blood
  | mandible
  | other
deriving DecidableEq, Repr

/-- The closed event set of parser::events::LogEvent, as constructed by the
classifier in line_classifier.rs. -/
inductive LogEvent where
  | login (name : Str)
  | reconnect (name : Str)
  | soloKill (creature : Str) (verb : KillVerb)
  | assistedKill (creature : Str) (verb : KillVerb)
  | fallen (name cause : Str)
  | recovered (name : Str)
  | firstDepart
  | depart (count : Int)
  | trainerRank (trainerName message : Str)
  | coinsPickedUp (amount : Int)
  | coinBalance (amount : Int)
  | lootShare (item : Str) (worth amount : Int) (lootType : LootType)
  | bellBroken
  | bellUsed
  | chainBreak
  | chainShatter
  | chainSnap
  | chainUsed (target : Str)
  | shieldstoneUsed
  | shieldstoneBroken
  | etherealPortalOpened
  | etherealPortalStoneUsed
  | studyProgress (creature progress : Str)
  | studyAbandon (creature : Str)
  | studyCharge (amount : Int)
  | experienceGain
  | esteemGain
  | clanningChange (name : Str) (isClanning : Bool)
  | disconnect
  | karmaReceived (good : Bool)
  | professionAnnouncement (name profession : Str)
  | untrained
  | applyLearningRank (characterName trainerName : Str) (isFull : Bool)
  | lastyBeginStudy (creature lastyType : Str)
  | lastyProgress (creature lastyType : Str)
  | lastyFinished (creature lastyType : Str)
  | lastyCompleted (trainer : Str)
  | ignored
deriving DecidableEq, Repr

/-!
Pattern table.  The file parser/patterns.rs of the amanuensis-core crate is
absent from the source tree (an earlier variant exists in the sibling
scribius-core crate); every matcher below therefore carries a doc comment
explaining where its shape comes from.  Matchers that only exist in the
amanuensis variant are modelled from the spec, pinned down by the classifier
unit tests that are present in line_classifier.rs.
-/

/-- Pattern WELCOME_LOGIN, from the sibling crate: a full-line match of
Welcome to Clan Lord, name! with a non-empty name capture. -/
def welcome_login? (m : Str) : Option Str :=
  between? (str "Welcome to Clan Lord, ") (str "!") m

/-- Pattern WELCOME_BACK, from the sibling crate. -/
def welcome_back? (m : Str) : Option Str :=
  between? (str "Welcome back, ") (str "!") m

/-- Modelled from the spec: the amanuensis SOLO_KILL pattern.  The spec and
the classifier tests require You verb name. to capture the whole name
including a leading article (the article is stripped afterwards by
strip_article, so the Ramandu stays distinct from Ramandu). -/
def solo_kill? (m : Str) : Option (KillVerb × Str) :=
  match between? (str "You killed ") (str ".") m with
  | some c => some (KillVerb.killed, c)
  | none =>
  match between? (str "You slaughtered ") (str ".") m with
  | some c => some (KillVerb.slaughtered, c)
  | none =>
  match between? (str "You vanquished ") (str ".") m with
  | some c => some (KillVerb.vanquished, c)
  | none =>
  match between? (str "You dispatched ") (str ".") m with
  | some c => some (KillVerb.dispatched, c)
  | none => none

/-- Modelled from the spec: the amanuensis ASSISTED_KILL pattern, with the
infinitive verb set after the word helped. -/
def assisted_kill? (m : Str) : Option (KillVerb × Str) :=
  match between? (str "You helped kill ") (str ".") m with
  | some c => some (KillVerb.killed, c)
  | none =>
  match between? (str "You helped slaughter ") (str ".") m with
  | some c => some (KillVerb.slaughtered, c)
  | none =>
  match between? (str "You helped vanquish ") (str ".") m with
  | some c => some (KillVerb.vanquished, c)
  | none =>
  match between? (str "You helped dispatch ") (str ".") m with
  | some c => some (KillVerb.dispatched, c)
  | none => none

/-- Pattern FALLEN, from the sibling crate: name has fallen to a/an cause. -/
def fallen? (m : Str) : Option (Str × Str) :=
  match splitFirst? (str " has fallen to ") m with
  | none => none
  | some (name, rest) =>
    if name.isEmpty then none
    else
      match stripSuf? (str ".") rest with
      | none => none
      | some r =>
        match stripPre? (str "an ") r with
        | some cause => if cause.isEmpty then none else some (name, cause)
        | none =>
          match stripPre? (str "a ") r with
          | some cause => if cause.isEmpty then none else some (name, cause)
          | none => none

/-- Pattern RECOVERED, from the sibling crate. -/
def recovered? (m : Str) : Option Str :=
  match stripSuf? (str " is no longer fallen.") m with
  | some name => if name.isEmpty then none else some name
  | none => none

/-- Pattern FIRST_DEPART, from the sibling crate. -/
def first_depart_match (m : Str) : Bool :=
  decide (m = str "This is the first time your spirit has departed your body.")

/-- Pattern DEPART_COUNT, from the sibling crate. -/
def depart_count? (m : Str) : Option Nat :=
  match between? (str "Your spirit has departed your body ") (str " times.") m with
  | some d => parseNat? d
  | none =>
    match between? (str "Your spirit has departed your body ") (str " time.") m with
    | some d => parseNat? d
    | none => none

/-- Pattern COINS_PICKED_UP, from the sibling crate. -/
def coins_picked_up? (m : Str) : Option Nat :=
  match between? (str "* You pick up ") (str " coins.") m with
  | some d => parseNat? d
  | none =>
    match between? (str "* You pick up ") (str " coin.") m with
    | some d => parseNat? d
    | none => none

/-- Pattern COIN_BALANCE, from the sibling crate. -/
def coin_balance? (m : Str) : Option Nat :=
  match between? (str "You have ") (str " coins.") m with
  | some d => parseNat? d
  | none =>
    match between? (str "You have ") (str " coin.") m with
    | some d => parseNat? d
    | none => none

/-- Map the loot word of a recovery message to its LootType. -/
def lootTypeOf (w : Str) : LootType :=
  if w = str "fur" then LootType.fur
  else if w = str "blood" then LootType.blood
  else if w = str "mandible" ∨ w = str "mandibles" then LootType.mandible
  else LootType.other

/-- Split a string at its last space: item name and trailing loot word. -/
def splitLastSpace? (s : Str) : Option (Str × Str) :=
  match splitFirst? [' '] s.reverse with
  | none => none
  | some (revWord, revItem) => some (revItem.reverse, revWord.reverse)

/-- Modelled from the spec: the amanuensis LOOT_SHARE pattern for shared
recoveries, star someone recovers the item word, worth Wc. Your share is
Nc. — amount is the share, worth the total. -/
def loot_share? (m : Str) : Option (Str × LootType × Nat × Nat) :=
  match stripPre? (str "* ") m with
  | none => none
  | some r0 =>
  match splitFirst? (str " recover") r0 with
  | none => none
  | some (who, r1) =>
    if who.isEmpty then none
    else
      match
        (match stripPre? (str "s the ") r1 with
         | some r => some r
         | none => stripPre? (str " the ") r1) with
      | none => none
      | some r2 =>
      match splitFirst? (str ", worth ") r2 with
      | none => none
      | some (itemAndWord, r3) =>
        match splitLastSpace? itemAndWord with
        | none => none
        | some (item, word) =>
          if item.isEmpty then none
          else
            let wd := r3.takeWhile Char.isDigit
            let r4 := r3.dropWhile Char.isDigit
            match stripPre? (str "c. Your share is ") r4 with
            | none => none
            | some r5 =>
              let ad := r5.takeWhile Char.isDigit
              let r6 := r5.dropWhile Char.isDigit
              if r6 = str "c." then
                match parseNat? wd, parseNat? ad with
                | some w, some a => some (item, lootTypeOf word, w, a)
                | _, _ => none
              else none

/-- Modelled from the spec: the amanuensis SELF_RECOVERY pattern, the same
message without a share suffix — full value goes to the player. -/
def self_recovery? (m : Str) : Option (Str × LootType × Nat) :=
  match stripPre? (str "* ") m with
  | none => none
  | some r0 =>
  match splitFirst? (str " recover") r0 with
  | none => none
  | some (who, r1) =>
    if who.isEmpty then none
    else
      match
        (match stripPre? (str "s the ") r1 with
         | some r => some r
         | none => stripPre? (str " the ") r1) with
      | none => none
      | some r2 =>
      match splitFirst? (str ", worth ") r2 with
      | none => none
      | some (itemAndWord, r3) =>
        match splitLastSpace? itemAndWord with
        | none => none
        | some (item, word) =>
          if item.isEmpty then none
          else
            let wd := r3.takeWhile Char.isDigit
            let r4 := r3.dropWhile Char.isDigit
            if r4 = str "c." then
              (parseNat? wd).map (fun w => (item, lootTypeOf word, w))
            else none

/-- Pattern BELL_BROKEN, from the sibling crate. -/
def bell_broken_match (m : Str) : Bool :=
  decide (m = str "* Your bell crumbles to dust.")

/-- Pattern BELL_USED, from the sibling crate (a prefix match). -/
def bell_used_match (m : Str) : Bool :=
  beginsWith (str "* The bell rings soundlessly into the void, summoning") m

/-- Pattern CHAIN_BREAK, from the sibling crate. -/
def chain_break_match (m : Str) : Bool :=
  decide (m = str "Your chain breaks as you try to use it.")

/-- Pattern CHAIN_SHATTER, from the sibling crate. -/
def chain_shatter_match (m : Str) : Bool :=
  decide (m = str "A link in your chain shatters.")

/-- Pattern CHAIN_SNAP, from the sibling crate. -/
def chain_snap_match (m : Str) : Bool :=
  decide (m = str "Your chain snaps as you try to use it.")

/-- Pattern CHAIN_DRAG, from the sibling crate. -/
def chain_drag? (m : Str) : Option Str :=
  between? (str "You start dragging ") (str ".") m

/-- Pattern SHIELDSTONE_USED, from the sibling crate. -/
def shieldstone_used_match (m : Str) : Bool :=
  decide (m = str "* You activate your shieldstone.")

/-- Pattern SHIELDSTONE_BROKEN, from the sibling crate. -/
def shieldstone_broken_match (m : Str) : Bool :=
  decide (m = str "Your Shieldstone goes inert.")

/-- Pattern ETHEREAL_PORTAL, from the sibling crate. -/
def ethereal_portal_match (m : Str) : Bool :=
  decide (m = str "You open an ethereal portal.")

/-- Pattern ETHEREAL_STONE_USED, from the sibling crate. -/
def ethereal_stone_used_match (m : Str) : Bool :=
  decide (m = str "Your ethereal portal stone disappears into the ether.")

/-- Pattern SPEECH, from the sibling crate: someone says, exclaims, yells,
ponders, thinks, or asks followed by a quoted utterance. -/
def speech_match (m : Str) : Bool :=
  hasInfix (str " says, \"") m ∨ hasInfix (str " exclaims, \"") m ∨
  hasInfix (str " yells, \"") m ∨ hasInfix (str " ponders, \"") m ∨
  hasInfix (str " thinks, \"") m ∨ hasInfix (str " asks, \"") m

/-- Pattern EMOTE, from the sibling crate: a parenthesised line with a space
that has at least one character on each side. -/
def emote_match (m : Str) : Bool :=
  match stripPre? (str "(") m with
  | none => false
  | some r =>
    match stripSuf? (str ")") r with
    | none => false
    | some inner => ((inner.drop 1).dropLast).contains ' '

/-- Pattern CLANNING_ON, from the sibling crate. -/
def clanning_on? (m : Str) : Option Str :=
  match stripSuf? (str " is now Clanning.") m with
  | some name => if name.isEmpty then none else some name
  | none => none

/-- Pattern CLANNING_OFF, from the sibling crate. -/
def clanning_off? (m : Str) : Option Str :=
  match stripSuf? (str " is no longer Clanning.") m with
  | some name => if name.isEmpty then none else some name
  | none => none

/-- Pattern DISCONNECT, from the sibling crate. -/
def disconnect_match (m : Str) : Bool :=
  decide (m = str "*** We are no longer connected to the Clan Lord game server. ***")

/-- Pattern EXPERIENCE_GAIN, from the sibling crate (prefix alternatives). -/
def experience_gain_match (m : Str) : Bool :=
  beginsWith (str "* You grow more mindful") m ∨
  beginsWith (str "* You gain experience") m ∨
  beginsWith (str "* You gain morale") m

/-- Modelled from the spec: the amanuensis ESTEEM_GAIN pattern.  Esteem
lines share the star You gain prefix with experience lines and must be
recognised whenever the word esteem appears after it, so that the line You
gain experience and esteem counts as esteem. -/
def esteem_gain_match (m : Str) : Bool :=
  beginsWith (str "* You gain ") m ∧ hasInfix (str "esteem") m

/-- Modelled from the spec: the amanuensis KARMA_RECEIVED pattern, with an
optional word anonymous before the good or bad polarity capture. -/
def karma_received? (m : Str) : Option Bool :=
  match stripPre? (str "You just received ") m with
  | none => none
  | some r =>
    let r :=
      match stripPre? (str "anonymous ") r with
      | some r2 => r2
      | none => r
    if beginsWith (str "good karma") r then some true
    else if beginsWith (str "bad karma") r then some false
    else none

/-- Modelled from the spec: the amanuensis APPLY_LEARNING_CONFIRM pattern.
The NPC confirmation speech Congratulations, name. You should now understand
much more of trainer's teachings. captures the character and the trainer;
the trainer may be followed by a straight or typographic apostrophe. -/
def apply_learning_confirm? (m : Str) : Option (Str × Str) :=
  match dropThrough? (str "Congratulations, ") m with
  | none => none
  | some r =>
  match splitFirst? (str ". You should now understand ") r with
  | none => none
  | some (charName, r2) =>
    if charName.isEmpty then none
    else
      match stripPre? (str "much more of ") r2 with
      | none => none
      | some r3 =>
        match
          (match stripSuf? (str "'s teachings.\"") r3 with
           | some t => some t
           | none => stripSuf? (str "’s teachings.\"") r3) with
        | some trainer => if trainer.isEmpty then none else some (charName, trainer)
        | none => none

/-- Modelled from the spec: the amanuensis APPLY_LEARNING_PARTIAL pattern.
The partial confirmation only says more; because the word more is a
substring of much more, this matcher also fires on the full confirmation,
which is exactly why the classifier must test the full form first. -/
def apply_learning_partial? (m : Str) : Option (Str × Str) :=
  match dropThrough? (str "Congratulations, ") m with
  | none => none
  | some r =>
  match splitFirst? (str ". You should now understand ") r with
  | none => none
  | some (charName, r2) =>
    if charName.isEmpty then none
    else
      match dropThrough? (str "more of ") r2 with
      | none => none
      | some r3 =>
        match
          (match stripSuf? (str "'s teachings.\"") r3 with
           | some t => some t
           | none => stripSuf? (str "’s teachings.\"") r3) with
        | some trainer => if trainer.isEmpty then none else some (charName, trainer)
        | none => none

/-- Modelled from the spec: the amanuensis PROFESSION_CIRCLE_TEST pattern,
Congratulations go out to name, who has just passed the nth circle
profession test. -/
def profession_circle_test? (m : Str) : Option (Str × Str) :=
  match dropThrough? (str "Congratulations go out to ") m with
  | none => none
  | some r =>
  match splitFirst? (str ", who has just passed the ") r with
  | none => none
  | some (name, r2) =>
    if name.isEmpty then none
    else
      match dropThrough? (str " circle ") r2 with
      | none => none
      | some r3 =>
        match stripSuf? (str " test.\"") r3 with
        | some prof => if prof.isEmpty then none else some (name, prof)
        | none => none

/-- Modelled from the spec: the amanuensis PROFESSION_BECOME pattern,
Congratulations to name, who has just become a profession. -/
def profession_become? (m : Str) : Option (Str × Str) :=
  match dropThrough? (str "Congratulations to ") m with
  | none => none
  | some r =>
  match splitFirst? (str ", who has just become a") r with
  | none => none
  | some (name, r2) =>
    if name.isEmpty then none
    else
      let r3 :=
        match stripPre? (str "n ") r2 with
        | some r4 => r4
        | none =>
          match stripPre? (str " ") r2 with
          | some r4 => r4
          | none => r2
      match stripSuf? (str ".\"") r3 with
      | some prof => if prof.isEmpty then none else some (name, prof)
      | none => none

/-- Modelled from the spec: the amanuensis UNTRAINED pattern for the
untraining completion speech, your mind is less cluttered. -/
def untrained_match (m : Str) : Bool :=
  hasInfix (str "your mind is less cluttered") m

/-- Modelled from the spec: the amanuensis STUDY_CHARGE pattern, You have
been charged N coins for advanced studies, matched on the trimmed body of a
system-prefixed line. -/
def study_charge? (m : Str) : Option Nat :=
  match between? (str "You have been charged ") (str " coins for advanced studies.") m with
  | some d => parseNat? d
  | none =>
    match between? (str "You have been charged ") (str " coin for advanced studies.") m with
    | some d => parseNat? d
    | none => none

/-- Pattern STUDY_PROGRESS, from the sibling crate: currently studying, or
remembering the studies of, a creature with some amount left to learn. -/
def study_progress? (m : Str) : Option (Str × Str) :=
  match
    (match stripPre? (str "You are currently studying the ") m with
     | some r => some r
     | none => stripPre? (str "You are remembering your studies of the ") m) with
  | none => none
  | some r =>
    match splitFirst? (str ", and have ") r with
    | none => none
    | some (creature, r2) =>
      if creature.isEmpty then none
      else
        match stripSuf? (str " left to learn.") r2 with
        | some progress => if progress.isEmpty then none else some (creature, progress)
        | none => none

/-- Modelled from the spec: the amanuensis STUDY_ABANDON pattern. -/
def study_abandon? (m : Str) : Option Str :=
  between? (str "You abandon your study of the ") (str ".") m

/-- Modelled from the spec: the amanuensis LASTY_BEGIN_STUDY pattern, You
begin studying the type of the creature. -/
def lasty_begin_study? (m : Str) : Option (Str × Str) :=
  match stripPre? (str "You begin studying the ") m with
  | none => none
  | some r =>
    match splitFirst? (str " of the ") r with
    | none => none
    | some (stype, r2) =>
      if stype.isEmpty then none
      else
        match stripSuf? (str ".") r2 with
        | some creature => if creature.isEmpty then none else some (stype, creature)
        | none => none

/-- Modelled from the spec: the amanuensis LASTY_LEARN_PROGRESS pattern, You
have amount left to learn about the type of the creature. -/
def lasty_learn_progress? (m : Str) : Option (Str × Str) :=
  if beginsWith (str "You have ") m then
    match dropThrough? (str " left to learn about the ") m with
    | none => none
    | some r =>
      match splitFirst? (str " of the ") r with
      | none => none
      | some (stype, r2) =>
        if stype.isEmpty then none
        else
          match stripSuf? (str ".") r2 with
          | some creature => if creature.isEmpty then none else some (stype, creature)
          | none => none
  else none

/-- Pattern LASTY_BEFRIEND, from the sibling crate. -/
def lasty_befriend? (m : Str) : Option Str :=
  between? (str "You learn to befriend the ") (str ".") m

/-- Pattern LASTY_MORPH, from the sibling crate. -/
def lasty_morph? (m : Str) : Option Str :=
  between? (str "You learn to assume the form of the ") (str ".") m

/-- Pattern LASTY_MOVEMENTS, from the sibling crate. -/
def lasty_movements? (m : Str) : Option Str :=
  between? (str "You learn to fight the ") (str " more effectively.") m

/-- Pattern LASTY_COMPLETED, from the sibling crate. -/
def lasty_completed? (m : Str) : Option Str :=
  between? (str "You have completed your training with ") (str ".") m

/-- Pattern YEN_HEALING_SENSE, from the sibling crate. -/
def yen_healing_sense_match (m : Str) : Bool :=
  (between? (str "You sense healing energy from ") (str ".") m).isSome

/-- Pattern YEN_SUN_EVENT, from the sibling crate. -/
def yen_sun_event_match (m : Str) : Bool :=
  decide (m = str "The Sun rises.") ∨ decide (m = str "The Sun sets.")

/-- Pattern YEN_STUDY_GAIN as the amanuensis classifier applies it to the
trimmed body: a prefix match of You gain experience from your. -/
def yen_study_gain_match (m : Str) : Bool :=
  beginsWith (str "You gain experience from your") m

/-- Pattern YEN_STUDY_CONCURRENT, from the sibling crate. -/
def yen_study_concurrent_match (m : Str) : Bool :=
  match between? (str "You can study up to ") (str " creatures concurrently.") m with
  | some d => (parseNat? d).isSome
  | none =>
    match between? (str "You can study up to ") (str " creature concurrently.") m with
    | some d => (parseNat? d).isSome
    | none => false

/-- Embedding of normalize_profession from line_classifier.rs: known
professions map to their canonical capitalisation, anything else is
title-cased.  ASCII case folding suffices for the log alphabet. -/
def normalize_profession (raw : Str) : Str :=
  let lower := raw.map asciiLower
  if lower = str "fighter" then str "Fighter"
  else if lower = str "healer" then str "Healer"
  else if lower = str "mystic" then str "Mystic"
  else if lower = str "ranger" then str "Ranger"
  else if lower = str "bloodmage" then str "Bloodmage"
  else if lower = str "champion" then str "Champion"
  else
    match lower with
    | [] => []
    | c :: cs => asciiUpper c :: cs

/-- Embedding of study_type_to_lasty from line_classifier.rs. -/
def study_type_to_lasty (studyType : Str) : Str :=
  if studyType = str "ways" then str "Befriend"
  else if studyType = str "movements" then str "Movements"
  else if studyType = str "essence" then str "Morph"
  else studyType

/-- Embedding of strip_article from line_classifier.rs: strip a leading
indefinite article, in the source order an before a, and keep anything
else — in particular a leading definite article the. -/
def strip_article (name : Str) : Str :=
  match stripPre? (str "an ") name with
  | some rest => rest
  | none =>
    match stripPre? (str "a ") name with
    | some rest => rest
    | none => name

/-- The trainer-message lookup service: message body to trainer name.  The
bundled table is an external data input, so it is a parameter here. -/
abbrev TrainerDb := Str → Option Str

/-- Embedding of classify_system_message from line_classifier.rs: the body
after the marker glyph is trimmed, study and lasty patterns are checked
before the known non-trainer messages, and the trainer lookup comes last. -/
def classify_system_message (trainerDb : TrainerDb) (m : Str) : LogEvent :=
  let body := trimStr (m.drop 1)
  match study_charge? body with
  | some amount => LogEvent.studyCharge (Int.ofNat amount)
  | none =>
  match study_progress? body with
  | some (creature, progress) => LogEvent.studyProgress creature progress
  | none =>
  match study_abandon? body with
  | some creature => LogEvent.studyAbandon creature
  | none =>
  match lasty_begin_study? body with
  | some (stype, creature) => LogEvent.lastyBeginStudy creature (study_type_to_lasty stype)
  | none =>
  match lasty_learn_progress? body with
  | some (stype, creature) => LogEvent.lastyProgress creature (study_type_to_lasty stype)
  | none =>
  match lasty_befriend? body with
  | some creature => LogEvent.lastyFinished creature (str "Befriend")
  | none =>
  match lasty_morph? body with
  | some creature => LogEvent.lastyFinished creature (str "Morph")
  | none =>
  match lasty_movements? body with
  | some creature => LogEvent.lastyFinished creature (str "Movements")
  | none =>
  match lasty_completed? body with
  | some trainer => LogEvent.lastyCompleted trainer
  | none =>
  if yen_healing_sense_match body ∨ yen_sun_event_match body ∨
     yen_study_gain_match body ∨ yen_study_concurrent_match body then
    LogEvent.ignored
  else
    match trainerDb body with
    | some trainerName => LogEvent.trainerRank trainerName body
    | none => LogEvent.ignored

/-- Embedding of classify_line from line_classifier.rs, preserving the
priority order of the source exactly: karma, apply-learning full before
partial, profession announcements, untraining, the speech and emote
discard, system-prefixed lines, welcome messages, kills, deaths and
departs, coins and loot, equipment, esteem before experience, clanning,
disconnect, otherwise ignored. -/
def classify_line (trainerDb : TrainerDb) (m : Str) : LogEvent :=
  if m.isEmpty then LogEvent.ignored
  else
  match karma_received? m with
  | some good => LogEvent.karmaReceived good
  | none =>
  match apply_learning_confirm? m with
  | some (charName, trainerName) => LogEvent.applyLearningRank charName trainerName true
  | none =>
  match apply_learning_partial? m with
  | some (charName, trainerName) => LogEvent.applyLearningRank charName trainerName false
  | none =>
  match profession_circle_test? m with
  | some (name, prof) => LogEvent.professionAnnouncement name (normalize_profession prof)
  | none =>
  match profession_become? m with
  | some (name, prof) => LogEvent.professionAnnouncement name (normalize_profession prof)
  | none =>
  if untrained_match m then LogEvent.untrained
  else if speech_match m ∨ emote_match m then LogEvent.ignored
  else if (match m with | c :: _ => c = '¥' ∨ c = '•' | [] => false : Bool) then
    classify_system_message trainerDb m
  else
  match welcome_login? m with
  | some name => LogEvent.login name
  | none =>
  match welcome_back? m with
  | some name => LogEvent.reconnect name
  | none =>
  match solo_kill? m with
  | some (verb, creature) => LogEvent.soloKill (strip_article creature) verb
  | none =>
  match assisted_kill? m with
  | some (verb, creature) => LogEvent.assistedKill (strip_article creature) verb
  | none =>
  match fallen? m with
  | some (name, cause) => LogEvent.fallen name cause
  | none =>
  match recovered? m with
  | some name => LogEvent.recovered name
  | none =>
  if first_depart_match m then LogEvent.firstDepart
  else
  match depart_count? m with
  | some count => LogEvent.depart (Int.ofNat count)
  | none =>
  match coins_picked_up? m with
  | some amount => LogEvent.coinsPickedUp (Int.ofNat amount)
  | none =>
  match coin_balance? m with
  | some amount => LogEvent.coinBalance (Int.ofNat amount)
  | none =>
  match loot_share? m with
  | some (item, lt, worth, amount) =>
    LogEvent.lootShare item (Int.ofNat worth) (Int.ofNat amount) lt
  | none =>
  match self_recovery? m with
  | some (item, lt, worth) =>
    LogEvent.lootShare item (Int.ofNat worth) (Int.ofNat worth) lt
  | none =>
  if bell_broken_match m then LogEvent.bellBroken
  else if bell_used_match m then LogEvent.bellUsed
  else if chain_break_match m then LogEvent.chainBreak
  else if chain_shatter_match m then LogEvent.chainShatter
  else if chain_snap_match m then LogEvent.chainSnap
  else
  match chain_drag? m with
  | some target => LogEvent.chainUsed target
  | none =>
  if shieldstone_used_match m then LogEvent.shieldstoneUsed
  else if shieldstone_broken_match m then LogEvent.shieldstoneBroken
  else if ethereal_portal_match m then LogEvent.etherealPortalOpened
  else if ethereal_stone_used_match m then LogEvent.etherealPortalStoneUsed
  else if esteem_gain_match m then LogEvent.esteemGain
  else if experience_gain_match m then LogEvent.experienceGain
  else
  match clanning_on? m with
  | some name => LogEvent.clanningChange name true
  | none =>
  match clanning_off? m with
  | some name => LogEvent.clanningChange name false
  | none =>
  if disconnect_match m then LogEvent.disconnect
  else LogEvent.ignored

/-!
Encoding normalizer, from encoding.rs.  Bytes are Nat values below 256.
-/

/-- Continuation-byte test for UTF-8. -/
def utf8Cont (b : Nat) : Bool := 0x80 ≤ b ∧ b ≤ 0xBF

/-- Strict UTF-8 decoding, the embedding of std str from_utf8: some on
exactly the well-formed sequences (overlongs, surrogates and out-of-range
code points rejected), none otherwise. -/
def utf8Decode? : List Nat → Option (List Char)
  | [] => some []
  | b :: rest =>
    if b ≤ 0x7F then
      (utf8Decode? rest).map (fun cs => Char.ofNat b :: cs)
    else if 0xC2 ≤ b ∧ b ≤ 0xDF then
      match rest with
      | b1 :: rest2 =>
        if utf8Cont b1 then
          (utf8Decode? rest2).map (fun cs =>
            Char.ofNat ((b - 0xC0) * 64 + (b1 - 0x80)) :: cs)
        else none
      | [] => none
    else if 0xE0 ≤ b ∧ b ≤ 0xEF then
      match rest with
      | b1 :: b2 :: rest2 =>
        if (if b = 0xE0 then 0xA0 else 0x80) ≤ b1 ∧
           b1 ≤ (if b = 0xED then 0x9F else 0xBF) ∧ utf8Cont b2 then
          (utf8Decode? rest2).map (fun cs =>
            Char.ofNat ((b - 0xE0) * 4096 + (b1 - 0x80) * 64 + (b2 - 0x80)) :: cs)
        else none
      | _ => none
    else if 0xF0 ≤ b ∧ b ≤ 0xF4 then
      match rest with
      | b1 :: b2 :: b3 :: rest2 =>
        if (if b = 0xF0 then 0x90 else 0x80) ≤ b1 ∧
           b1 ≤ (if b = 0xF4 then 0x8F else 0xBF) ∧ utf8Cont b2 ∧ utf8Cont b3 then
          (utf8Decode? rest2).map (fun cs =>
            Char.ofNat ((b - 0xF0) * 262144 + (b1 - 0x80) * 4096 +
              (b2 - 0x80) * 64 + (b3 - 0x80)) :: cs)
        else none
      | _ => none
    else none

/-- Embedding of patch_mac_roman_bytes from encoding.rs: remap the Mac
Roman accented-letter range 0x80 to 0x9F onto the Windows-1252 bytes of the
same Unicode characters, leaving every other byte alone. -/
def patch_mac_roman_bytes (line : List Nat) : List Nat :=
  line.map (fun b =>
    match b with
    | 0x80 => 0xC4
    | 0x81 => 0xC5
    | 0x82 => 0xC7
    | 0x83 => 0xC9
    | 0x84 => 0xD1
    | 0x85 => 0xD6
    | 0x86 => 0xDC
    | 0x87 => 0xE1
    | 0x88 => 0xE0
    | 0x89 => 0xE2
    | 0x8A => 0xE4
    | 0x8B => 0xE3
    | 0x8C => 0xE5
    | 0x8D => 0xE7
    | 0x8E => 0xE9
    | 0x8F => 0xE8
    | 0x90 => 0xEA
    | 0x91 => 0xEB
    | 0x92 => 0xED
    | 0x93 => 0xEC
    | 0x94 => 0xEE
    | 0x95 => 0xEF
    | 0x96 => 0xF1
    | 0x97 => 0xF3
    | 0x98 => 0xF2
    | 0x99 => 0xF4
    | 0x9A => 0xF6
    | 0x9B => 0xF5
    | 0x9C => 0xFA
    | 0x9D => 0xF9
    | 0x9E => 0xFB
    | 0x9F => 0xFC
    | other => other)

/-- Windows-1252 single-byte decoding as encoding_rs performs it: ASCII and
the 0xA0 to 0xFF range decode to the same code point, the 0x80 to 0x9F range
holds typography symbols (with the five unassigned bytes passed through as
C1 controls, never an error). -/
def w1252Char (b : Nat) : Char :=
  if b < 0x80 then Char.ofNat b
  else
    match b with
    | 0x80 => Char.ofNat 0x20AC
    | 0x82 => Char.ofNat 0x201A
    | 0x83 => Char.ofNat 0x0192
    | 0x84 => Char.ofNat 0x201E
    | 0x85 => Char.ofNat 0x2026
    | 0x86 => Char.ofNat 0x2020
    | 0x87 => Char.ofNat 0x2021
    | 0x88 => Char.ofNat 0x02C6
    | 0x89 => Char.ofNat 0x2030
    | 0x8A => Char.ofNat 0x0160
    | 0x8B => Char.ofNat 0x2039
    | 0x8C => Char.ofNat 0x0152
    | 0x8E => Char.ofNat 0x017D
    | 0x91 => Char.ofNat 0x2018
    | 0x92 => Char.ofNat 0x2019
    | 0x93 => Char.ofNat 0x201C
    | 0x94 => Char.ofNat 0x201D
    | 0x95 => Char.ofNat 0x2022
    | 0x96 => Char.ofNat 0x2013
    | 0x97 => Char.ofNat 0x2014
    | 0x98 => Char.ofNat 0x02DC
    | 0x99 => Char.ofNat 0x2122
    | 0x9A => Char.ofNat 0x0161
    | 0x9B => Char.ofNat 0x203A
    | 0x9C => Char.ofNat 0x0153
    | 0x9E => Char.ofNat 0x017E
    | 0x9F => Char.ofNat 0x0178
    | other => Char.ofNat other

/-- Split a byte buffer on the raw newline byte, as slice split does: one
piece per separator gap, so a trailing newline yields a final empty piece. -/
def splitOnByte (sep : Nat) : List Nat → List (List Nat)
  | [] => [[]]
  | b :: rest =>
    if b = sep then [] :: splitOnByte sep rest
    else
      match splitOnByte sep rest with
      | p :: ps => (b :: p) :: ps
      | [] => [[b]]

/-- Embedding of decode_log_bytes from encoding.rs: fast path when the whole
buffer is valid UTF-8, otherwise decode line by line, falling back per line
to Windows-1252 after the Mac Roman patch.  The newline is re-inserted only
when the accumulated result is non-empty, exactly as the source does. -/
def decode_log_bytes (bytes : List Nat) : List Char :=
  match utf8Decode? bytes with
  | some s => s
  | none =>
    (splitOnByte 10 bytes).foldl
      (fun result line =>
        let result := if result.isEmpty then result else result ++ ['\n']
        match utf8Decode? line with
        | some s => result ++ s
        | none => result ++ (patch_mac_roman_bytes line).map w1252Char)
      []

/-!
Timestamp parsing.  The module parser/timestamp.rs of the amanuensis crate
is absent from the source tree; the embedding below follows the sibling
crate's identically-named module, which the amanuensis parser re-declares.
-/

/-- Split a string on one separator character, one piece per gap. -/
def splitOnChar (sep : Char) : Str → List Str
  | [] => [[]]
  | c :: rest =>
    if c = sep then [] :: splitOnChar sep rest
    else
      match splitOnChar sep rest with
      | p :: ps => (c :: p) :: ps
      | [] => [[c]]

/-- Embedding of str lines from the Rust standard library: split on the
newline, drop a final empty piece produced by a trailing newline, and strip
one trailing carriage return per line. -/
def linesOf (content : Str) : List Str :=
  if content.isEmpty then []
  else
    let ps := splitOnChar '\n' content
    let ps := if ps.getLast? = some [] then ps.dropLast else ps
    ps.map (fun l => if l.getLast? = some '\r' then l.dropLast else l)

/-- Leap-year rule of the proleptic Gregorian calendar. -/
def isLeapYear (y : Nat) : Bool := y % 4 = 0 ∧ (y % 100 ≠ 0 ∨ y % 400 = 0)

/-- Days in a month, for the calendar validity check chrono performs. -/
def daysInMonth (y m : Nat) : Nat :=
  if m = 2 then (if isLeapYear y then 29 else 28)
  else if m = 4 ∨ m = 6 ∨ m = 9 ∨ m = 11 then 30
  else 31

/-- Zero-padded two-digit decimal rendering. -/
def pad2 (n : Nat) : Str :=
  if n < 10 then '0' :: Nat.toDigits 10 n else Nat.toDigits 10 n

/-- Embedding of parse_timestamp from the sibling crate's timestamp.rs: a
leading M/D/YY H:MM:SSa or p timestamp is split off the line, converted to a
24-hour date-time, validated, and rendered in the Y-m-d H:M:S shape the
scanner stores; the remainder after the second space is the message body. -/
def parse_timestamp? (line : Str) : Option (Str × Str) :=
  if line.length < 16 then none
  else
    match splitFirst? (str " ") line with
    | none => none
    | some (datePart, rest) =>
      match splitFirst? (str "/") datePart with
      | none => none
      | some (ms, r1) =>
      match splitFirst? (str "/") r1 with
      | none => none
      | some (ds, ys) =>
        if hasInfix (str "/") ys then none
        else
          match parseNat? ms, parseNat? ds, parseNat? ys with
          | some month, some day, some yShort =>
            let year := 2000 + yShort
            match splitFirst? (str " ") rest with
            | none => none
            | some (timeAmpm, message) =>
              match timeAmpm.reverse with
              | [] => none
              | ampm :: revTime =>
                let timePart := revTime.reverse
                match splitFirst? (str ":") timePart with
                | none => none
                | some (hs, t1) =>
                match splitFirst? (str ":") t1 with
                | none => none
                | some (mins, secs) =>
                  if hasInfix (str ":") secs then none
                  else
                    match parseNat? hs, parseNat? mins, parseNat? secs with
                    | some hour, some minute, some second =>
                      match
                        (if ampm = 'a' then
                          some (if hour = 12 then 0 else hour)
                        else if ampm = 'p' then
                          some (if hour = 12 then 12 else hour + 12)
                        else none) with
                      | none => none
                      | some hour24 =>
                        if 1 ≤ month ∧ month ≤ 12 ∧ 1 ≤ day ∧ day ≤ 31 ∧
                           hour24 ≤ 23 ∧ minute ≤ 59 ∧ second ≤ 59 ∧
                           day ≤ daysInMonth year month then
                          some
                            (Nat.toDigits 10 year ++ ['-'] ++ pad2 month ++ ['-'] ++
                              pad2 day ++ [' '] ++ pad2 hour24 ++ [':'] ++
                              pad2 minute ++ [':'] ++ pad2 second,
                             message)
                        else none
                    | _, _, _ => none
          | _, _, _ => none

/-!
Store model, from db/queries.rs.  Each table is a list of rows keyed the way
the schema keys it; ids assigned by autoincrement are modelled with explicit
next-id counters.  The i64 columns are embedded as Int.
-/

/-- A characters row, with the columns db/queries.rs reads and writes.
Defaults follow the schema: zero counters, Unknown profession, null dates
and a null merged_into pointer. -/
structure Character where
  name : Str
  profession : Str
  logins : Int
  departs : Int
  deaths : Int
  esteem : Int
  armor : Str
  coins_picked_up : Int
  casino_won : Int
  casino_lost : Int
  chest_coins : Int
  bounty_coins : Int
  fur_coins : Int
  mandible_coins : Int
  blood_coins : Int
  bells_used : Int
  bells_broken : Int
  chains_used : Int
  chains_broken : Int
  shieldstones_used : Int
  shieldstones_broken : Int
  ethereal_portals : Int
  darkstone : Int
  purgatory_pendant : Int
  coin_level : Int
  good_karma : Int
  bad_karma : Int
  start_date : Option Str
  fur_worth : Int
  mandible_worth : Int
  blood_worth : Int
  eps_broken : Int
  untraining_count : Int
  merged_into : Option Nat

/-- A fresh characters row for a given name, as INSERT INTO characters
(name) creates it with the schema defaults. -/
def Character.new (name : Str) : Character where
  name := name
  profession := str "Unknown"
  logins := 0
  departs := 0
  deaths := 0
  esteem := 0
  armor := []
  coins_picked_up := 0
  casino_won := 0
  casino_lost := 0
  chest_coins := 0
  bounty_coins := 0
  fur_coins := 0
  mandible_coins := 0
  blood_coins := 0
  bells_used := 0
  bells_broken := 0
  chains_used := 0
  chains_broken := 0
  shieldstones_used := 0
  shieldstones_broken := 0
  ethereal_portals := 0
  darkstone := 0
  purgatory_pendant := 0
  coin_level := 0
  good_karma := 0
  bad_karma := 0
  start_date := none
  fur_worth := 0
  mandible_worth := 0
  blood_worth := 0
  eps_broken := 0
  untraining_count := 0
  merged_into := none

/-- The closed set of incrementable character counters, replacing the
stringly-typed allow-list of increment_character_field. -/
inductive CharField where
  | logins
  | departs
  | deaths
  | esteem
  | coins_picked_up
  | casino_won
  | casino_lost
  | chest_coins
  | bounty_coins
  | fur_coins
  | mandible_coins
  | blood_coins
  | bells_used
  | bells_broken
  | chains_used
  | chains_broken
  | shieldstones_used
  | shieldstones_broken
  | ethereal_portals
  | darkstone
  | purgatory_pendant
  | coin_level
  | good_karma
  | bad_karma
  | fur_worth
  | mandible_worth
  | blood_worth
  | eps_broken
  | untraining_count
deriving DecidableEq, Repr

/-- Add an amount to one counter of a characters row. -/
def Character.addField (c : Character) (f : CharField) (amount : Int) : Character :=
  match f with
  | CharField.logins => { c with logins := c.logins + amount }
  | CharField.departs => { c with departs := c.departs + amount }
  | CharField.deaths => { c with deaths := c.deaths + amount }
  | CharField.esteem => { c with esteem := c.esteem + amount }
  | CharField.coins_picked_up => { c with coins_picked_up := c.coins_picked_up + amount }
  | CharField.casino_won => { c with casino_won := c.casino_won + amount }
  | CharField.casino_lost => { c with casino_lost := c.casino_lost + amount }
  | CharField.chest_coins => { c with chest_coins := c.chest_coins + amount }
  | CharField.bounty_coins => { c with bounty_coins := c.bounty_coins + amount }
  | CharField.fur_coins => { c with fur_coins := c.fur_coins + amount }
  | CharField.mandible_coins => { c with mandible_coins := c.mandible_coins + amount }
  | CharField.blood_coins => { c with blood_coins := c.blood_coins + amount }
  | CharField.bells_used => { c with bells_used := c.bells_used + amount }
  | CharField.bells_broken => { c with bells_broken := c.bells_broken + amount }
  | CharField.chains_used => { c with chains_used := c.chains_used + amount }
  | CharField.chains_broken => { c with chains_broken := c.chains_broken + amount }
  | CharField.shieldstones_used => { c with shieldstones_used := c.shieldstones_used + amount }
  | CharField.shieldstones_broken => { c with shieldstones_broken := c.shieldstones_broken + amount }
  | CharField.ethereal_portals => { c with ethereal_portals := c.ethereal_portals + amount }
  | CharField.darkstone => { c with darkstone := c.darkstone + amount }
  | CharField.purgatory_pendant => { c with purgatory_pendant := c.purgatory_pendant + amount }
  | CharField.coin_level => { c with coin_level := c.coin_level + amount }
  | CharField.good_karma => { c with good_karma := c.good_karma + amount }
  | CharField.bad_karma => { c with bad_karma := c.bad_karma + amount }
  | CharField.fur_worth => { c with fur_worth := c.fur_worth + amount }
  | CharField.mandible_worth => { c with mandible_worth := c.mandible_worth + amount }
  | CharField.blood_worth => { c with blood_worth := c.blood_worth + amount }
  | CharField.eps_broken => { c with eps_broken := c.eps_broken + amount }
  | CharField.untraining_count => { c with untraining_count := c.untraining_count + amount }

/-- A kills row, unique per (character_id, creature_name). -/
structure Kill where
  character_id : Nat
  creature_name : Str
  killed_count : Int
  slaughtered_count : Int
  vanquished_count : Int
  dispatched_count : Int
  assisted_kill_count : Int
  assisted_slaughter_count : Int
  assisted_vanquish_count : Int
  assisted_dispatch_count : Int
  killed_by_count : Int
  date_first : Option Str
  date_last : Option Str
  creature_value : Int
  date_last_killed : Option Str
  date_last_slaughtered : Option Str
  date_last_vanquished : Option Str
  date_last_dispatched : Option Str

/-- The closed set of kill counters, replacing the allow-list of
upsert_kill. -/
inductive KillField where
  | killed_count
  | slaughtered_count
  | vanquished_count
  | dispatched_count
  | assisted_kill_count
  | assisted_slaughter_count
  | assisted_vanquish_count
  | assisted_dispatch_count
  | killed_by_count
deriving DecidableEq, Repr

/-- A trainers row, unique per (character_id, trainer_name). -/
structure Trainer where
  character_id : Nat
  trainer_name : Str
  ranks : Int
  modified_ranks : Int
  date_of_last_rank : Option Str
  apply_learning_ranks : Int
  apply_learning_unknown_count : Int

/-- A lastys row, unique per (character_id, creature_name); the id feeds the
latest-unfinished selection of complete_lasty. -/
structure Lasty where
  id : Nat
  character_id : Nat
  creature_name : Str
  lasty_type : Str
  finished : Bool
  message_count : Int
  first_seen_date : Option Str
  last_seen_date : Option Str
  completed_date : Option Str
  abandoned_date : Option Str

/-- A pets row, unique per (character_id, pet_name). -/
structure Pet where
  character_id : Nat
  pet_name : Str
  creature_name : Str

/-- A log_files ledger row; file_path carries a UNIQUE constraint. -/
structure LogFile where
  character_id : Nat
  file_path : Str
  content_hash : List Nat
  date_read : Str

/-- The whole persistent store of db/schema.rs, with the log_lines
full-text rows kept as plain tuples. -/
structure Store where
  next_id : Nat
  characters : List (Nat × Character)
  kills : List Kill
  trainers : List Trainer
  next_lasty_id : Nat
  lastys : List Lasty
  pets : List Pet
  log_files : List LogFile
  log_lines : List (Nat × Str × Str × Str)

/-- A freshly created store. -/
def Store.empty : Store where
  next_id := 1
  characters := []
  kills := []
  trainers := []
  next_lasty_id := 1
  lastys := []
  pets := []
  log_files := []
  log_lines := []

/-- Look a characters row up by id, the embedding of get_character_by_id. -/
def get_character_by_id (st : Store) (id : Nat) : Option Character :=
  (st.characters.find? (fun p => decide (p.1 = id))).map (fun p => p.2)

/-- Replace the characters row with the given id, leaving other rows and
their order untouched; a missing id makes this a no-op, as an SQL UPDATE
with an unmatched WHERE is. -/
def updateChar (st : Store) (id : Nat) (f : Character → Character) : Store :=
  { st with characters := st.characters.map (fun p => if p.1 = id then (p.1, f p.2) else p) }

/-- Embedding of get_or_create_character: find by name, otherwise insert a
fresh row and hand back the new rowid. -/
def get_or_create_character (st : Store) (name : Str) : Store × Nat :=
  match st.characters.find? (fun p => decide (p.2.name = name)) with
  | some p => (st, p.1)
  | none =>
    ({ st with
        characters := st.characters ++ [(st.next_id, Character.new name)]
        next_id := st.next_id + 1 },
     st.next_id)

/-- Embedding of increment_character_field with the closed counter set. -/
def increment_character_field (st : Store) (id : Nat) (f : CharField) (amount : Int) : Store :=
  updateChar st id (fun c => c.addField f amount)

/-- Bump one counter of a kills row on conflict, refreshing date_last and,
for the four solo counters, the per-verb last date, exactly as the ON
CONFLICT clause of upsert_kill does. -/
def Kill.bump (k : Kill) (f : KillField) (date : Str) : Kill :=
  let k := { k with date_last := some date }
  match f with
  | KillField.killed_count =>
    { k with killed_count := k.killed_count + 1, date_last_killed := some date }
  | KillField.slaughtered_count =>
    { k with slaughtered_count := k.slaughtered_count + 1, date_last_slaughtered := some date }
  | KillField.vanquished_count =>
    { k with vanquished_count := k.vanquished_count + 1, date_last_vanquished := some date }
  | KillField.dispatched_count =>
    { k with dispatched_count := k.dispatched_count + 1, date_last_dispatched := some date }
  | KillField.assisted_kill_count =>
    { k with assisted_kill_count := k.assisted_kill_count + 1 }
  | KillField.assisted_slaughter_count =>
    { k with assisted_slaughter_count := k.assisted_slaughter_count + 1 }
  | KillField.assisted_vanquish_count =>
    { k with assisted_vanquish_count := k.assisted_vanquish_count + 1 }
  | KillField.assisted_dispatch_count =>
    { k with assisted_dispatch_count := k.assisted_dispatch_count + 1 }
  | KillField.killed_by_count =>
    { k with killed_by_count := k.killed_by_count + 1 }

/-- A freshly inserted kills row with one count in the given field, as the
INSERT branch of upsert_kill creates it. -/
def Kill.fresh (charId : Nat) (creature : Str) (f : KillField) (value : Int) (date : Str) : Kill :=
  Kill.bump
    { character_id := charId
      creature_name := creature
      killed_count := 0
      slaughtered_count := 0
      vanquished_count := 0
      dispatched_count := 0
      assisted_kill_count := 0
      assisted_slaughter_count := 0
      assisted_vanquish_count := 0
      assisted_dispatch_count := 0
      killed_by_count := 0
      date_first := some date
      date_last := some date
      creature_value := value
      date_last_killed := none
      date_last_slaughtered := none
      date_last_vanquished := none
      date_last_dispatched := none }
    f date

/-- Embedding of upsert_kill: one row per (character, creature), counts
incremented on conflict, the cached creature value written only on insert. -/
def upsert_kill (st : Store) (charId : Nat) (creature : Str) (f : KillField)
    (value : Int) (date : Str) : Store :=
  if st.kills.any (fun k => decide (k.character_id = charId ∧ k.creature_name = creature)) then
    { st with
        kills := st.kills.map (fun k =>
          if k.character_id = charId ∧ k.creature_name = creature then k.bump f date else k) }
  else
    { st with kills := st.kills ++ [Kill.fresh charId creature f value date] }

/-- Embedding of upsert_trainer_rank: one row per (character, trainer),
ranks incremented on conflict, last-rank date refreshed. -/
def upsert_trainer_rank (st : Store) (charId : Nat) (trainerName : Str) (date : Str) : Store :=
  if st.trainers.any (fun t => decide (t.character_id = charId ∧ t.trainer_name = trainerName)) then
    { st with
        trainers := st.trainers.map (fun t =>
          if t.character_id = charId ∧ t.trainer_name = trainerName then
            { t with ranks := t.ranks + 1, date_of_last_rank := some date }
          else t) }
  else
    { st with
        trainers := st.trainers ++
          [{ character_id := charId, trainer_name := trainerName, ranks := 1,
             modified_ranks := 0, date_of_last_rank := some date,
             apply_learning_ranks := 0, apply_learning_unknown_count := 0 }] }

/-- Embedding of upsert_apply_learning: confirmed bonus ranks accumulate on
the (character, trainer) row. -/
def upsert_apply_learning (st : Store) (charId : Nat) (trainerName : Str)
    (date : Str) (amount : Int) : Store :=
  if st.trainers.any (fun t => decide (t.character_id = charId ∧ t.trainer_name = trainerName)) then
    { st with
        trainers := st.trainers.map (fun t =>
          if t.character_id = charId ∧ t.trainer_name = trainerName then
            { t with apply_learning_ranks := t.apply_learning_ranks + amount,
                     date_of_last_rank := some date }
          else t) }
  else
    { st with
        trainers := st.trainers ++
          [{ character_id := charId, trainer_name := trainerName, ranks := 0,
             modified_ranks := 0, date_of_last_rank := some date,
             apply_learning_ranks := amount, apply_learning_unknown_count := 0 }] }

/-- Embedding of upsert_apply_learning_unknown: unconfirmed bonus events are
tallied on the (character, trainer) row. -/
def upsert_apply_learning_unknown (st : Store) (charId : Nat) (trainerName : Str)
    (date : Str) : Store :=
  if st.trainers.any (fun t => decide (t.character_id = charId ∧ t.trainer_name = trainerName)) then
    { st with
        trainers := st.trainers.map (fun t =>
          if t.character_id = charId ∧ t.trainer_name = trainerName then
            { t with apply_learning_unknown_count := t.apply_learning_unknown_count + 1,
                     date_of_last_rank := some date }
          else t) }
  else
    { st with
        trainers := st.trainers ++
          [{ character_id := charId, trainer_name := trainerName, ranks := 0,
             modified_ranks := 0, date_of_last_rank := some date,
             apply_learning_ranks := 0, apply_learning_unknown_count := 1 }] }

/-- Embedding of is_log_scanned: a ledger row exists for this path. -/
def is_log_scanned (st : Store) (path : Str) : Bool :=
  st.log_files.any (fun lf => decide (lf.file_path = path))

/-- Embedding of is_hash_scanned: a ledger row exists for this content hash. -/
def is_hash_scanned (st : Store) (hash : List Nat) : Bool :=
  st.log_files.any (fun lf => decide (lf.content_hash = hash))

/-- Embedding of mark_log_scanned, an INSERT OR IGNORE keyed by the unique
file path. -/
def mark_log_scanned (st : Store) (charId : Nat) (path : Str) (hash : List Nat)
    (dateRead : Str) : Store :=
  if is_log_scanned st path then st
  else
    { st with
        log_files := st.log_files ++
          [{ character_id := charId, file_path := path, content_hash := hash,
             date_read := dateRead }] }

/-- Embedding of upsert_pet, an INSERT OR IGNORE keyed by (character,
pet name); the creature name doubles as the pet name. -/
def upsert_pet (st : Store) (charId : Nat) (creature : Str) : Store :=
  if st.pets.any (fun p => decide (p.character_id = charId ∧ p.pet_name = creature)) then st
  else
    { st with
        pets := st.pets ++
          [{ character_id := charId, pet_name := creature, creature_name := creature }] }

/-- Embedding of upsert_lasty: one row per (character, creature); the
message count grows and the last-seen date refreshes on conflict, while the
stored study type is kept. -/
def upsert_lasty (st : Store) (charId : Nat) (creature : Str) (ltype : Str)
    (date : Str) : Store :=
  if st.lastys.any (fun l => decide (l.character_id = charId ∧ l.creature_name = creature)) then
    { st with
        lastys := st.lastys.map (fun l =>
          if l.character_id = charId ∧ l.creature_name = creature then
            { l with message_count := l.message_count + 1, last_seen_date := some date }
          else l) }
  else
    { st with
        lastys := st.lastys ++
          [{ id := st.next_lasty_id, character_id := charId, creature_name := creature,
             lasty_type := ltype, finished := false, message_count := 1,
             first_seen_date := some date, last_seen_date := some date,
             completed_date := none, abandoned_date := none }]
        next_lasty_id := st.next_lasty_id + 1 }

/-- Embedding of finish_lasty: like upsert_lasty but the row ends finished
with a completion date. -/
def finish_lasty (st : Store) (charId : Nat) (creature : Str) (ltype : Str)
    (date : Str) : Store :=
  if st.lastys.any (fun l => decide (l.character_id = charId ∧ l.creature_name = creature)) then
    { st with
        lastys := st.lastys.map (fun l =>
          if l.character_id = charId ∧ l.creature_name = creature then
            { l with message_count := l.message_count + 1, finished := true,
                     last_seen_date := some date, completed_date := some date }
          else l) }
  else
    { st with
        lastys := st.lastys ++
          [{ id := st.next_lasty_id, character_id := charId, creature_name := creature,
             lasty_type := ltype, finished := true, message_count := 1,
             first_seen_date := some date, last_seen_date := some date,
             completed_date := some date, abandoned_date := none }]
        next_lasty_id := st.next_lasty_id + 1 }

/-- Embedding of complete_lasty: mark the most recent (highest id)
unfinished lasty of the character as finished. -/
def complete_lasty (st : Store) (charId : Nat) : Store :=
  match ((st.lastys.filter (fun l =>
      decide (l.character_id = charId ∧ l.finished = false))).map (fun l => l.id)).max? with
  | some i =>
    { st with lastys := st.lastys.map (fun l => if l.id = i then { l with finished := true } else l) }
  | none => st

/-- Embedding of update_character_profession. -/
def update_character_profession (st : Store) (id : Nat) (profession : Str) : Store :=
  updateChar st id (fun c => { c with profession := profession })

/-- Embedding of update_coin_level. -/
def update_coin_level (st : Store) (id : Nat) (coinLevel : Int) : Store :=
  updateChar st id (fun c => { c with coin_level := coinLevel })

/-- Lexicographic code-point order, matching how SQLite compares the stored
date strings (memcmp over UTF-8 preserves code-point order). -/
def strLt : Str → Str → Bool
  | [], [] => false
  | [], _ :: _ => true
  | _ :: _, [] => false
  | a :: as, b :: bs =>
    if a.toNat < b.toNat then true
    else if a.toNat = b.toNat then strLt as bs
    else false

/-- Embedding of update_start_date: keep the earlier of the stored and the
offered date, treating a null stored date as later than anything. -/
def update_start_date (st : Store) (id : Nat) (date : Str) : Store :=
  updateChar st id (fun c =>
    match c.start_date with
    | none => { c with start_date := some date }
    | some d => if strLt date d then { c with start_date := some date } else c)

/-!
Character merging, from db/queries.rs.  The BEGIN, COMMIT and ROLLBACK
wrappers are embedded by returning the produced store on success and the
untouched pre-transaction store alongside the error on failure.
-/

/-- The synchronously rejected data errors the merge subsystem can raise. -/
inductive DataErr where
  | targetNotFound (id : Nat)
  | targetMerged
  | selfMerge (id : Nat)
  | sourceNotFound (id : Nat)
  | sourceMerged (id : Nat)
  | charNotFound (id : Nat)
  | notMerged (id : Nat)
deriving DecidableEq, Repr

/-- Embedding of merged_source_ids: the ids of every row whose merged_into
pointer names the target, in table order. -/
def merged_source_ids (st : Store) (target : Nat) : List Nat :=
  (st.characters.filter (fun p => decide (p.2.merged_into = some target))).map (fun p => p.1)

/-- Embedding of char_ids_for_merged: the target first, then its sources. -/
def char_ids_for_merged (st : Store) (id : Nat) : List Nat :=
  id :: merged_source_ids st id

/-- Sum of ranks plus modified_ranks plus apply_learning_ranks over the
trainer rows of the given characters — the COALESCE SUM the queries run. -/
def trainer_rank_sum (st : Store) (ids : List Nat) : Int :=
  ((st.trainers.filter (fun t => decide (t.character_id ∈ ids))).map
    (fun t => t.ranks + t.modified_ranks + t.apply_learning_ranks)).sum

/-- Embedding of recalculate_merged_stats: the target's coin_level becomes
the trainer-rank sum over the target and its current sources. -/
def recalculate_merged_stats (st : Store) (target : Nat) : Store :=
  update_coin_level st target (trainer_rank_sum st (char_ids_for_merged st target))

/-- The per-source half of merge_characters_inner: validate and point each
source at the target, in order, stopping at the first rejection.  Sources
already pointed at a target by an earlier iteration stay pointed — the
enclosing transaction is what undoes them. -/
def merge_sources (st : Store) (target : Nat) : List Nat → Except DataErr Store
  | [] => Except.ok st
  | s :: rest =>
    if s = target then Except.error (DataErr.selfMerge s)
    else
      match get_character_by_id st s with
      | none => Except.error (DataErr.sourceNotFound s)
      | some cs =>
        if cs.merged_into.isSome then Except.error (DataErr.sourceMerged s)
        else
          merge_sources (updateChar st s (fun c => { c with merged_into := some target }))
            target rest

/-- Embedding of merge_characters_inner: reject a merged target, then fold
the sources, then recompute the target's aggregate coin level. -/
def merge_characters_inner (st : Store) (sourceIds : List Nat) (target : Nat) :
    Except DataErr Store :=
  match get_character_by_id st target with
  | none => Except.error (DataErr.targetNotFound target)
  | some ct =>
    if ct.merged_into.isSome then Except.error DataErr.targetMerged
    else
      match merge_sources st target sourceIds with
      | Except.error e => Except.error e
      | Except.ok st2 => Except.ok (recalculate_merged_stats st2 target)

/-- Embedding of merge_characters with its transaction: the store of the
pair is the committed store on success and the rolled-back (original) store
on failure. -/
def merge_characters (st : Store) (sourceIds : List Nat) (target : Nat) :
    Store × Option DataErr :=
  match merge_characters_inner st sourceIds target with
  | Except.ok st2 => (st2, none)
  | Except.error e => (st, some e)

/-- Embedding of unmerge_character_inner: clear the pointer of a currently
merged character and recompute the former target's aggregate. -/
def unmerge_character_inner (st : Store) (source : Nat) : Except DataErr Store :=
  match get_character_by_id st source with
  | none => Except.error (DataErr.charNotFound source)
  | some cs =>
    match cs.merged_into with
    | none => Except.error (DataErr.notMerged source)
    | some formerTarget =>
      Except.ok
        (recalculate_merged_stats
          (updateChar st source (fun c => { c with merged_into := none }))
          formerTarget)

/-- Embedding of unmerge_character with its transaction, like
merge_characters. -/
def unmerge_character (st : Store) (source : Nat) : Store × Option DataErr :=
  match unmerge_character_inner st source with
  | Except.ok st2 => (st2, none)
  | Except.error e => (st, some e)

/-- The summing step of get_character_merged: add a source row's scalar
counters onto the accumulated view and keep the earlier start date.  The
armor text, profession, name and pointer of the target are untouched, and
coin_level is handled separately by the caller. -/
def Character.absorb (m source : Character) : Character :=
  { m with
      logins := m.logins + source.logins
      departs := m.departs + source.departs
      deaths := m.deaths + source.deaths
      esteem := m.esteem + source.esteem
      coins_picked_up := m.coins_picked_up + source.coins_picked_up
      casino_won := m.casino_won + source.casino_won
      casino_lost := m.casino_lost + source.casino_lost
      chest_coins := m.chest_coins + source.chest_coins
      bounty_coins := m.bounty_coins + source.bounty_coins
      fur_coins := m.fur_coins + source.fur_coins
      mandible_coins := m.mandible_coins + source.mandible_coins
      blood_coins := m.blood_coins + source.blood_coins
      bells_used := m.bells_used + source.bells_used
      bells_broken := m.bells_broken + source.bells_broken
      chains_used := m.chains_used + source.chains_used
      chains_broken := m.chains_broken + source.chains_broken
      shieldstones_used := m.shieldstones_used + source.shieldstones_used
      shieldstones_broken := m.shieldstones_broken + source.shieldstones_broken
      ethereal_portals := m.ethereal_portals + source.ethereal_portals
      darkstone := m.darkstone + source.darkstone
      purgatory_pendant := m.purgatory_pendant + source.purgatory_pendant
      good_karma := m.good_karma + source.good_karma
      bad_karma := m.bad_karma + source.bad_karma
      fur_worth := m.fur_worth + source.fur_worth
      mandible_worth := m.mandible_worth + source.mandible_worth
      blood_worth := m.blood_worth + source.blood_worth
      eps_broken := m.eps_broken + source.eps_broken
      untraining_count := m.untraining_count + source.untraining_count
      start_date :=
        match source.start_date with
        | none => m.start_date
        | some sd =>
          match m.start_date with
          | none => some sd
          | some md => if strLt sd md then some sd else m.start_date }

/-- Embedding of get_character_merged: the target row with every source
row's counters summed on, the earliest start date, and coin_level recomputed
from the merged trainer rows; a character without sources reads through to
its own row. -/
def get_character_merged (st : Store) (id : Nat) : Option Character :=
  let sourceIds := merged_source_ids st id
  if sourceIds.isEmpty then get_character_by_id st id
  else
    match get_character_by_id st id with
    | none => none
    | some target =>
      let merged := sourceIds.foldl
        (fun m sid =>
          match get_character_by_id st sid with
          | some source => m.absorb source
          | none => m)
        target
      some { merged with coin_level := trainer_rank_sum st (char_ids_for_merged st id) }

/-!
Scan orchestrator, from parser/mod.rs.  Store writes go through a database
handle that can be scheduled to fail: the fuel counter names the first write
that raises a store error (a constraint violation or connection failure in
the real engine), after which later writes succeed again.  Reads do not
fail.  This makes the error-propagation structure of the source — which
calls are caught per file and which abort the enclosing transaction — a
provable property rather than an untestable one.
-/

/-- A database handle: the store plus the fault schedule. -/
structure DbState where
  store : Store
  fuel : Option Nat

/-- The store-level failure the fault schedule injects. -/
inductive DbErr where
  | storeFault
deriving DecidableEq, Repr

/-- Run one store write through the handle: with fuel at zero the write
fails and is not applied, otherwise it is applied and the fuel counts down. -/
def dbWrite (f : Store → Store) (d : DbState) : DbState × Option DbErr :=
  match d.fuel with
  | some 0 => ({ d with fuel := none }, some DbErr.storeFault)
  | some (n + 1) => ({ store := f d.store, fuel := some n }, none)
  | none => ({ store := f d.store, fuel := none }, none)

/-- Sequence two fallible store writes, stopping at the first error — the
embedding of the question-mark operator between rusqlite calls. -/
def dbSeq (r : DbState × Option DbErr) (k : DbState → DbState × Option DbErr) :
    DbState × Option DbErr :=
  match r with
  | (d, none) => k d
  | (d, some e) => (d, some e)

/-- Embedding of kill_verb_to_field from parser/mod.rs. -/
def kill_verb_to_field (verb : KillVerb) (assisted : Bool) : KillField :=
  match verb, assisted with
  | KillVerb.killed, false => KillField.killed_count
  | KillVerb.slaughtered, false => KillField.slaughtered_count
  | KillVerb.vanquished, false => KillField.vanquished_count
  | KillVerb.dispatched, false => KillField.dispatched_count
  | KillVerb.killed, true => KillField.assisted_kill_count
  | KillVerb.slaughtered, true => KillField.assisted_slaughter_count
  | KillVerb.vanquished, true => KillField.assisted_vanquish_count
  | KillVerb.dispatched, true => KillField.assisted_dispatch_count

/-- The creature-value lookup service, an external read-only data input. -/
abbrev CreatureDb := Str → Option Int

/-- One store write followed by an arm's tuple return: the embedding of the
let-binding of dbWrite plus the question-mark result an arm ends with. -/
def writeArm (w : Store → Store) (d : DbState) (n : Nat) : DbState × Option DbErr × Nat :=
  ((dbWrite w d).1, (dbWrite w d).2, n)

/-- Two store writes in sequence followed by an arm's tuple return. -/
def writeArm2 (w1 w2 : Store → Store) (d : DbState) (n : Nat) :
    DbState × Option DbErr × Nat :=
  ((dbSeq (dbWrite w1 d) (fun d1 => dbWrite w2 d1)).1,
   (dbSeq (dbWrite w1 d) (fun d1 => dbWrite w2 d1)).2, n)

/-- Embedding of the per-event arm of scan_bytes from parser/mod.rs: apply
one classified event to the store, returning the events_found delta.  The
fallen and apply-learning arms compare the named character with the scanned
one ignoring ASCII case and do nothing on a mismatch; the depart event sets
the absolute count.  Three classifier events have no arm in the file as it
stands in the tree (the match is from an older event set): the untrained,
begin-study and lasty-finished arms here are Modelled from the spec, which
calls for an untraining counter and for study begin and completion records —
none of them touches any counter the other arms touch. -/
def apply_event (creatureDb : CreatureDb) (d : DbState) (charId : Nat)
    (charName : Str) (dateStr : Str) (ev : LogEvent) :
    DbState × Option DbErr × Nat :=
  match ev with
  | LogEvent.ignored => (d, none, 0)
  | LogEvent.coinBalance _ => (d, none, 0)
  | LogEvent.experienceGain => (d, none, 0)
  | LogEvent.clanningChange _ _ => (d, none, 0)
  | LogEvent.disconnect => (d, none, 0)
  | LogEvent.studyProgress _ _ => (d, none, 0)
  | LogEvent.studyAbandon _ => (d, none, 0)
  | LogEvent.recovered _ => (d, none, 0)
  | LogEvent.login _ =>
    if dateStr.isEmpty then (d, none, 1)
    else
      writeArm (fun st => update_start_date st charId dateStr) d 1
  | LogEvent.reconnect _ =>
    if dateStr.isEmpty then (d, none, 1)
    else
      writeArm (fun st => update_start_date st charId dateStr) d 1
  | LogEvent.soloKill creature verb =>
    let field := kill_verb_to_field verb false
    let value := (creatureDb creature).getD 0
    writeArm (fun st => upsert_kill st charId creature field value dateStr) d 1
  | LogEvent.assistedKill creature verb =>
    let field := kill_verb_to_field verb true
    let value := (creatureDb creature).getD 0
    writeArm (fun st => upsert_kill st charId creature field value dateStr) d 1
  | LogEvent.fallen name cause =>
    if eq_ignore_ascii_case name charName then
      writeArm2 (fun st => upsert_kill st charId cause KillField.killed_by_count 0 dateStr)
        (fun st => increment_character_field st charId CharField.deaths 1) d 1
    else (d, none, 0)
  | LogEvent.firstDepart =>
    writeArm (fun st => increment_character_field st charId CharField.departs 1) d 1
  | LogEvent.depart count =>
    writeArm (fun st => updateChar st charId (fun c => { c with departs := count })) d 1
  | LogEvent.trainerRank trainerName _ =>
    writeArm (fun st => upsert_trainer_rank st charId trainerName dateStr) d 1
  | LogEvent.coinsPickedUp amount =>
    writeArm (fun st => increment_character_field st charId CharField.coins_picked_up amount) d 1
  | LogEvent.lootShare _ worth amount lootType =>
    match lootType with
    | LootType.fur =>
      writeArm2 (fun st => increment_character_field st charId CharField.fur_coins amount)
        (fun st => increment_character_field st charId CharField.fur_worth worth) d 1
    | LootType.blood =>
      writeArm2 (fun st => increment_character_field st charId CharField.blood_coins amount)
        (fun st => increment_character_field st charId CharField.blood_worth worth) d 1
    | LootType.mandible =>
      writeArm2 (fun st => increment_character_field st charId CharField.mandible_coins amount)
        (fun st => increment_character_field st charId CharField.mandible_worth worth) d 1
    | LootType.other =>
      writeArm (fun st => increment_character_field st charId CharField.bounty_coins amount) d 1
  | LogEvent.studyCharge amount =>
    writeArm (fun st => increment_character_field st charId CharField.chest_coins amount) d 1
  | LogEvent.bellBroken =>
    writeArm (fun st => increment_character_field st charId CharField.bells_broken 1) d 1
  | LogEvent.bellUsed =>
    writeArm (fun st => increment_character_field st charId CharField.bells_used 1) d 1
  | LogEvent.chainBreak =>
    writeArm (fun st => increment_character_field st charId CharField.chains_broken 1) d 1
  | LogEvent.chainShatter =>
    writeArm (fun st => increment_character_field st charId CharField.chains_broken 1) d 1
  | LogEvent.chainSnap =>
    writeArm (fun st => increment_character_field st charId CharField.chains_broken 1) d 1
  | LogEvent.chainUsed _ =>
    writeArm (fun st => increment_character_field st charId CharField.chains_used 1) d 1
  | LogEvent.shieldstoneUsed =>
    writeArm (fun st => increment_character_field st charId CharField.shieldstones_used 1) d 1
  | LogEvent.shieldstoneBroken =>
    writeArm (fun st => increment_character_field st charId CharField.shieldstones_broken 1) d 1
  | LogEvent.etherealPortalOpened =>
    writeArm (fun st => increment_character_field st charId CharField.ethereal_portals 1) d 1
  | LogEvent.etherealPortalStoneUsed =>
    writeArm2 (fun st => increment_character_field st charId CharField.ethereal_portals 1)
      (fun st => increment_character_field st charId CharField.eps_broken 1) d 1
  | LogEvent.karmaReceived good =>
    let f := if good then CharField.good_karma else CharField.bad_karma
    writeArm (fun st => increment_character_field st charId f 1) d 1
  | LogEvent.esteemGain =>
    writeArm (fun st => increment_character_field st charId CharField.esteem 1) d 1
  | LogEvent.professionAnnouncement name profession =>
    if eq_ignore_ascii_case name charName then
      writeArm (fun st => update_character_profession st charId profession) d 1
    else (d, none, 1)
  | LogEvent.untrained =>
    writeArm (fun st => increment_character_field st charId CharField.untraining_count 1) d 1
  | LogEvent.applyLearningRank characterName trainerName isFull =>
    if eq_ignore_ascii_case characterName charName then
      if isFull then
        writeArm (fun st => upsert_apply_learning st charId trainerName dateStr 10) d 1
      else
        writeArm (fun st => upsert_apply_learning_unknown st charId trainerName dateStr) d 1
    else (d, none, 0)
  | LogEvent.lastyBeginStudy creature lastyType =>
    writeArm (fun st => upsert_lasty st charId creature lastyType dateStr) d 1
  | LogEvent.lastyProgress creature lastyType =>
    writeArm (fun st => upsert_lasty st charId creature lastyType dateStr) d 1
  | LogEvent.lastyFinished creature lastyType =>
    writeArm (fun st => finish_lasty st charId creature lastyType dateStr) d 1
  | LogEvent.lastyCompleted _ =>
    writeArm (fun st => complete_lasty st charId) d 1

/-- Per-file scan counters, parser::ScanResult without the character tally
that the directory loop owns. -/
structure FileResult where
  lines_parsed : Nat
  events_found : Nat
deriving DecidableEq, Repr

/-- The running accumulator of the line loop inside scan_bytes. -/
structure LineAcc where
  lines_parsed : Nat
  events_found : Nat
  found_login : Bool
  first_date : Option Str
  log_lines : List (Nat × Str × Str × Str)

/-- The empty line accumulator. -/
def LineAcc.init : LineAcc :=
  { lines_parsed := 0, events_found := 0, found_login := false,
    first_date := none, log_lines := [] }

/-- The timestamp rendered from a line, empty when the line has none — the
unwrap_or_default of the date string in scan_bytes. -/
def lineDate (line : Str) : Str :=
  match parse_timestamp? line with
  | some p => p.1
  | none => []

/-- The message body of a line, the whole line when it has no timestamp. -/
def lineMessage (line : Str) : Str :=
  match parse_timestamp? line with
  | some p => p.2
  | none => line

/-- The bookkeeping scan_bytes performs on its accumulator for one line:
count the line, queue it for indexing when non-blank, remember the first
timestamp, and remember that a login or reconnect appeared. -/
def lineAccUpd (trainerDb : TrainerDb) (charId : Nat) (filePath : Str)
    (indexLines : Bool) (line : Str) (acc : LineAcc) : LineAcc :=
  let acc := { acc with lines_parsed := acc.lines_parsed + 1 }
  let dateStr := lineDate line
  let acc :=
    if indexLines ∧ ¬(trimStr line).isEmpty then
      { acc with log_lines := acc.log_lines ++ [(charId, line, dateStr, filePath)] }
    else acc
  let acc :=
    if acc.first_date = none ∧ ¬dateStr.isEmpty then
      { acc with first_date := some dateStr }
    else acc
  match classify_line trainerDb (lineMessage line) with
  | LogEvent.login _ => { acc with found_login := true }
  | LogEvent.reconnect _ => { acc with found_login := true }
  | _ => acc

/-- The line loop of scan_bytes: split the timestamp off each line, classify
it, remember the first timestamp and whether a login appeared, queue the raw
line for indexing, and apply the event; a store error stops the loop and is
returned with the state reached so far, exactly as the question mark in the
source leaves the transaction. -/
def scan_lines (creatureDb : CreatureDb) (trainerDb : TrainerDb) (d : DbState)
    (charId : Nat) (charName : Str) (filePath : Str) (indexLines : Bool) :
    List Str → LineAcc → DbState × Except DbErr LineAcc
  | [], acc => (d, Except.ok acc)
  | line :: rest, acc =>
    match apply_event creatureDb d charId charName (lineDate line)
        (classify_line trainerDb (lineMessage line)) with
    | (d1, some e, _) => (d1, Except.error e)
    | (d1, none, delta) =>
      scan_lines creatureDb trainerDb d1 charId charName filePath indexLines rest
        { lineAccUpd trainerDb charId filePath indexLines line acc with
            events_found :=
              (lineAccUpd trainerDb charId filePath indexLines line acc).events_found + delta }

/-- Embedding of scan_bytes from parser/mod.rs: decode, walk the lines, then
count the file as exactly one login, fall back to the file's first timestamp
for the start date when no login line carried one, and batch the raw lines
into the full-text index. -/
def scan_bytes (creatureDb : CreatureDb) (trainerDb : TrainerDb) (d : DbState)
    (bytes : List Nat) (charId : Nat) (charName : Str) (filePath : Str)
    (indexLines : Bool) : DbState × Except DbErr FileResult :=
  match scan_lines creatureDb trainerDb d charId charName filePath indexLines
      (linesOf (decode_log_bytes bytes)) LineAcc.init with
  | (d1, Except.error e) => (d1, Except.error e)
  | (d1, Except.ok acc) =>
    match dbWrite (fun st => increment_character_field st charId CharField.logins 1) d1 with
    | (d2, some e) => (d2, Except.error e)
    | (d2, none) =>
      match
        (if acc.found_login then ((d2, none) : DbState × Option DbErr)
         else
          match acc.first_date with
          | some ts => dbWrite (fun st => update_start_date st charId ts) d2
          | none => (d2, none)) with
      | (d3, some e) => (d3, Except.error e)
      | (d3, none) =>
        if indexLines ∧ ¬acc.log_lines.isEmpty then
          match dbWrite (fun st => { st with log_lines := st.log_lines ++ acc.log_lines }) d3 with
          | (d4, some e) => (d4, Except.error e)
          | (d4, none) => (d4, Except.ok ⟨acc.lines_parsed, acc.events_found⟩)
        else (d3, Except.ok ⟨acc.lines_parsed, acc.events_found⟩)

/-- Whole-scan counters, parser::ScanResult. -/
structure ScanResult where
  characters : Nat
  files_scanned : Nat
  skipped : Nat
  lines_parsed : Nat
  events_found : Nat
  errors : Nat
deriving DecidableEq, Repr

/-- The all-zero scan result. -/
def ScanResult.zero : ScanResult :=
  { characters := 0, files_scanned := 0, skipped := 0, lines_parsed := 0,
    events_found := 0, errors := 0 }

/-- One file offered to the scanner: its path, and its bytes or none when
the read fails with an I/O error. -/
structure FileEntry where
  path : Str
  read : Option (List Nat)

/-- Modelled stand-in for hash_bytes of parser/mod.rs, whose SipHash-backed
DefaultHasher lives in the standard library: the ledger semantics the claims
exercise only need a deterministic function of the content, so the digest is
the content itself. -/
def hash_bytes (bytes : List Nat) : List Nat := bytes

/-- The per-character file loop of scan_folder_inner from parser/mod.rs:
skip by path, read (an unreadable file is counted and tolerated), skip by
content hash, scan, and record the ledger row.  A store error inside
scan_bytes is caught by the per-file match, counted as that file's error,
and the loop continues; a store error from the ledger write propagates and
aborts the whole scan. -/
def scan_files_inner (creatureDb : CreatureDb) (trainerDb : TrainerDb) (d : DbState)
    (force : Bool) (charId : Nat) (charName : Str) (now : Str) (indexLines : Bool) :
    List FileEntry → ScanResult → DbState × Except DbErr ScanResult
  | [], res => (d, Except.ok res)
  | f :: rest, res =>
    if force = false ∧ is_log_scanned d.store f.path then
      scan_files_inner creatureDb trainerDb d force charId charName now indexLines rest
        { res with skipped := res.skipped + 1 }
    else
      match f.read with
      | none =>
        scan_files_inner creatureDb trainerDb d force charId charName now indexLines rest
          { res with errors := res.errors + 1 }
      | some bytes =>
        if force = false ∧ is_hash_scanned d.store (hash_bytes bytes) then
          scan_files_inner creatureDb trainerDb d force charId charName now indexLines rest
            { res with skipped := res.skipped + 1 }
        else
          match scan_bytes creatureDb trainerDb d bytes charId charName f.path indexLines with
          | (d1, Except.ok fr) =>
            match dbWrite
                (fun st => mark_log_scanned st charId f.path (hash_bytes bytes) now) d1 with
            | (d2, some e) => (d2, Except.error e)
            | (d2, none) =>
              scan_files_inner creatureDb trainerDb d2 force charId charName now indexLines rest
                { res with
                    files_scanned := res.files_scanned + 1
                    lines_parsed := res.lines_parsed + fr.lines_parsed
                    events_found := res.events_found + fr.events_found }
          | (d1, Except.error _) =>
            scan_files_inner creatureDb trainerDb d1 force charId charName now indexLines rest
              { res with errors := res.errors + 1 }

/-- Embedding of the transaction wrapper of scan_folder from parser/mod.rs,
scoped to one character's files: on success the produced store is committed
with the result, on any propagated error the transaction rolls back and the
caller keeps the untouched pre-scan store. -/
def scan_folder (st : Store) (fuel : Option Nat) (creatureDb : CreatureDb)
    (trainerDb : TrainerDb) (force : Bool) (charId : Nat) (charName : Str)
    (now : Str) (indexLines : Bool) (files : List FileEntry) :
    Option ScanResult × Store :=
  match scan_files_inner creatureDb trainerDb { store := st, fuel := fuel } force
      charId charName now indexLines files ScanResult.zero with
  | (d, Except.ok res) => (some res, d.store)
  | (_, Except.error _) => (none, st)

/-!
Claim theorems.
-/

/-- C6: for every trainer table, the NPC confirmation line containing You
should now understand much more of Evus's teachings classifies as a full
apply-learning bonus for character Ajahn and trainer Evus with is_full
true; the partial more-of matcher and the generic speech filter both match
this very line, so only the classifier's strict priority order — full form
before partial form before the speech discard — produces this result. -/
theorem c6_apply_learning_full_before_partial_before_speech :
    ∀ trainerDb : TrainerDb,
      classify_line trainerDb
          (str "Aitnos says, \"Congratulations, Ajahn. You should now understand much more of Evus's teachings.\"") =
        LogEvent.applyLearningRank (str "Ajahn") (str "Evus") true ∧
      apply_learning_partial?
          (str "Aitnos says, \"Congratulations, Ajahn. You should now understand much more of Evus's teachings.\"") =
        some (str "Ajahn", str "Evus") ∧
      speech_match
          (str "Aitnos says, \"Congratulations, Ajahn. You should now understand much more of Evus's teachings.\"") =
        true := by
  intro trainerDb
  exact ⟨rfl, rfl, rfl⟩

/-- C7: kill lines strip a leading indefinite article but keep a leading
definite article — the slaughtered-a-Ramandu line yields creature Ramandu
while the killed-the-Ramandu line yields creature the Ramandu, two distinct
names that upsert into two distinct kill rows; and strip_article strips
exactly the prefixes a and an while preserving the. -/
theorem c7_article_stripping :
    (∀ trainerDb : TrainerDb,
      classify_line trainerDb (str "You slaughtered a Ramandu.") =
        LogEvent.soloKill (str "Ramandu") KillVerb.slaughtered ∧
      classify_line trainerDb (str "You killed the Ramandu.") =
        LogEvent.soloKill (str "the Ramandu") KillVerb.killed) ∧
    str "Ramandu" ≠ str "the Ramandu" ∧
    (upsert_kill
        (upsert_kill Store.empty 1 (str "Ramandu") KillField.slaughtered_count 0 [])
        1 (str "the Ramandu") KillField.killed_count 0 []).kills.length = 2 ∧
    (∀ rest : Str,
      strip_article ('a' :: ' ' :: rest) = rest ∧
      strip_article ('a' :: 'n' :: ' ' :: rest) = rest ∧
      strip_article ('t' :: 'h' :: 'e' :: ' ' :: rest) = 't' :: 'h' :: 'e' :: ' ' :: rest) := by
  refine ⟨fun trainerDb => ⟨rfl, rfl⟩, by decide, by rfl, fun rest => ⟨?_, ?_, ?_⟩⟩
  · simp [strip_article, stripPre?, str]
  · simp [strip_article, stripPre?, str]
  · simp [strip_article, stripPre?, str]

/-- C8: the encoding normalizer is total — every byte sequence yields some
string — and is the identity on input that is entirely valid UTF-8, the
default encoding. -/
theorem c8_decode_total_and_identity_on_utf8 :
    (∀ bytes : List Nat, ∃ out : List Char, decode_log_bytes bytes = out) ∧
    (∀ (bytes : List Nat) (s : List Char),
      utf8Decode? bytes = some s → decode_log_bytes bytes = s) := by
  constructor
  · intro bytes
    exact ⟨decode_log_bytes bytes, rfl⟩
  · intro bytes s h
    simp [decode_log_bytes, h]

/-- Witness for C8 at a concrete valid input and a concrete invalid one. -/
theorem c8_decode_witness :
    decode_log_bytes [72, 105] = str "Hi" ∧
    ∃ out : List Char, decode_log_bytes [0xA5, 72] = out :=
  ⟨c8_decode_total_and_identity_on_utf8.2 [72, 105] (str "Hi") (by rfl),
   c8_decode_total_and_identity_on_utf8.1 [0xA5, 72]⟩

/-!
Supporting lemmas about the row lists.
-/

/-- Mapping a list commutes with find? when the map preserves the selector. -/
theorem find?_map_eq {α : Type} (l : List α) (sel : α → Bool) (h : α → α)
    (hpres : ∀ a, sel (h a) = sel a) :
    (l.map h).find? sel = (l.find? sel).map h := by
  induction l with
  | nil => rfl
  | cons a t ih =>
    by_cases ha : sel a = true
    · simp [List.find?, hpres, ha]
    · simp only [Bool.not_eq_true] at ha
      simp [List.find?, hpres, ha, ih]

/-- The characters table of updateChar, read back at the updated id. -/
theorem get_character_by_id_updateChar_self (st : Store) (id : Nat) (f : Character → Character) :
    get_character_by_id (updateChar st id f) id = (get_character_by_id st id).map f := by
  unfold get_character_by_id updateChar
  rw [show (fun p : Nat × Character => if p.1 = id then (p.1, f p.2) else p) =
      (fun p : Nat × Character => if decide (p.1 = id) = true then (p.1, f p.2) else p) by
    funext p; by_cases h : p.1 = id <;> simp [h]]
  rw [find?_map_eq]
  · cases hfind : st.characters.find? (fun p => decide (p.1 = id)) with
    | none => rfl
    | some p =>
      have hp := List.find?_some hfind
      simp only [decide_eq_true_eq] at hp
      simp [hp]
  · intro a
    by_cases h : a.1 = id <;> simp [h]

/-- The characters table of updateChar, read back at any other id. -/
theorem get_character_by_id_updateChar_other (st : Store) (id j : Nat)
    (f : Character → Character) (hne : j ≠ id) :
    get_character_by_id (updateChar st id f) j = get_character_by_id st j := by
  unfold get_character_by_id updateChar
  rw [show (fun p : Nat × Character => if p.1 = id then (p.1, f p.2) else p) =
      (fun p : Nat × Character => if decide (p.1 = id) = true then (p.1, f p.2) else p) by
    funext p; by_cases h : p.1 = id <;> simp [h]]
  rw [find?_map_eq]
  · cases hfind : st.characters.find? (fun p => decide (p.1 = j)) with
    | none => rfl
    | some p =>
      have hp := List.find?_some hfind
      simp only [decide_eq_true_eq] at hp
      simp [hp, hne]
  · intro a
    by_cases h2 : a.1 = id <;> simp [h2]

/-- Character rows seen through the merged pointer of a characters entry are
untouched by every operation that edits only the other tables. -/
theorem updateChar_characters_map (st : Store) (id : Nat) (f : Character → Character) :
    (updateChar st id f).characters =
      st.characters.map (fun p => if p.1 = id then (p.1, f p.2) else p) := rfl

/-- upsert_kill leaves the characters table unchanged. -/
theorem upsert_kill_characters (st : Store) (charId : Nat) (creature : Str)
    (f : KillField) (value : Int) (date : Str) :
    (upsert_kill st charId creature f value date).characters = st.characters := by
  unfold upsert_kill
  split <;> rfl

/-- upsert_trainer_rank leaves the characters table unchanged. -/
theorem upsert_trainer_rank_characters (st : Store) (charId : Nat) (t d : Str) :
    (upsert_trainer_rank st charId t d).characters = st.characters := by
  unfold upsert_trainer_rank
  split <;> rfl

/-- upsert_apply_learning leaves the characters table unchanged. -/
theorem upsert_apply_learning_characters (st : Store) (charId : Nat) (t d : Str) (a : Int) :
    (upsert_apply_learning st charId t d a).characters = st.characters := by
  unfold upsert_apply_learning
  split <;> rfl

/-- upsert_apply_learning_unknown leaves the characters table unchanged. -/
theorem upsert_apply_learning_unknown_characters (st : Store) (charId : Nat) (t d : Str) :
    (upsert_apply_learning_unknown st charId t d).characters = st.characters := by
  unfold upsert_apply_learning_unknown
  split <;> rfl

/-- upsert_lasty leaves the characters table unchanged. -/
theorem upsert_lasty_characters (st : Store) (charId : Nat) (c t d : Str) :
    (upsert_lasty st charId c t d).characters = st.characters := by
  unfold upsert_lasty
  split <;> rfl

/-- finish_lasty leaves the characters table unchanged. -/
theorem finish_lasty_characters (st : Store) (charId : Nat) (c t d : Str) :
    (finish_lasty st charId c t d).characters = st.characters := by
  unfold finish_lasty
  split <;> rfl

/-- complete_lasty leaves the characters table unchanged. -/
theorem complete_lasty_characters (st : Store) (charId : Nat) :
    (complete_lasty st charId).characters = st.characters := by
  unfold complete_lasty
  split <;> rfl

/-- upsert_pet leaves the characters table unchanged. -/
theorem upsert_pet_characters (st : Store) (charId : Nat) (c : Str) :
    (upsert_pet st charId c).characters = st.characters := by
  unfold upsert_pet
  split <;> rfl

/-- mark_log_scanned leaves the characters table unchanged. -/
theorem mark_log_scanned_characters (st : Store) (charId : Nat) (p : Str)
    (h : List Nat) (d : Str) :
    (mark_log_scanned st charId p h d).characters = st.characters := by
  unfold mark_log_scanned
  split <;> rfl

/-- Two stores with the same characters table agree on every lookup. -/
theorem get_character_by_id_congr (st st' : Store) (j : Nat)
    (h : st'.characters = st.characters) :
    get_character_by_id st' j = get_character_by_id st j := by
  unfold get_character_by_id
  rw [h]

/-- Bumping a kill counter never changes the row key. -/
theorem Kill.bump_character_id (k : Kill) (f : KillField) (d : Str) :
    (k.bump f d).character_id = k.character_id := by
  cases f <;> rfl

/-- Bumping a kill counter never changes the creature name. -/
theorem Kill.bump_creature_name (k : Kill) (f : KillField) (d : Str) :
    (k.bump f d).creature_name = k.creature_name := by
  cases f <;> rfl

/-- Bumping the killed_by counter adds one to it. -/
theorem Kill.bump_killed_by (k : Kill) (d : Str) :
    (k.bump KillField.killed_by_count d).killed_by_count = k.killed_by_count + 1 := rfl

/-- The killed_by counter of the (character, creature) kill row, zero when
the row does not exist — the value the nemesis query reads. -/
def killed_by_of (st : Store) (charId : Nat) (creature : Str) : Int :=
  match st.kills.find? (fun k => decide (k.character_id = charId ∧ k.creature_name = creature)) with
  | some k => k.killed_by_count
  | none => 0

/-- find? looks left to right through an append. -/
theorem find?_append_eq {α : Type} (l₁ l₂ : List α) (p : α → Bool) :
    (l₁ ++ l₂).find? p = ((l₁.find? p).elim (l₂.find? p) some) := by
  induction l₁ with
  | nil => rfl
  | cons a t ih =>
    by_cases ha : p a = true
    · simp [List.find?, ha]
    · simp only [Bool.not_eq_true] at ha
      simp [List.find?, ha, ih]

/-- Two stores with the same kills table agree on every killed_by reading. -/
theorem killed_by_of_congr (st st' : Store) (j : Nat) (c : Str)
    (h : st'.kills = st.kills) :
    killed_by_of st' j c = killed_by_of st j c := by
  unfold killed_by_of
  rw [h]

/-- Upserting a killed_by count bumps exactly the addressed row's counter. -/
theorem killed_by_of_upsert_self (st : Store) (charId : Nat) (cause : Str)
    (v : Int) (date : Str) :
    killed_by_of (upsert_kill st charId cause KillField.killed_by_count v date) charId cause =
      killed_by_of st charId cause + 1 := by
  unfold upsert_kill killed_by_of
  by_cases hc :
      st.kills.any (fun k => decide (k.character_id = charId ∧ k.creature_name = cause)) = true
  · simp only [hc, if_true]
    rw [show (fun k : Kill =>
        if k.character_id = charId ∧ k.creature_name = cause then
          k.bump KillField.killed_by_count date else k) =
        (fun k : Kill =>
          if decide (k.character_id = charId ∧ k.creature_name = cause) = true then
            k.bump KillField.killed_by_count date else k) by
      funext k; by_cases h : k.character_id = charId ∧ k.creature_name = cause <;> simp [h]]
    rw [find?_map_eq]
    · cases hfind : st.kills.find?
          (fun k => decide (k.character_id = charId ∧ k.creature_name = cause)) with
      | none =>
        rw [List.find?_eq_none] at hfind
        rw [List.any_eq_true] at hc
        obtain ⟨k, hk, hkp⟩ := hc
        exact absurd hkp (by simpa using hfind k hk)
      | some k =>
        have hp := List.find?_some hfind
        simp only [decide_eq_true_eq] at hp
        simp [hp, Kill.bump_killed_by]
    · intro k
      by_cases h : k.character_id = charId ∧ k.creature_name = cause <;>
        simp [h, Kill.bump_character_id, Kill.bump_creature_name]
  · simp only [hc, if_false, Bool.false_eq_true]
    have hnone : st.kills.find?
        (fun k => decide (k.character_id = charId ∧ k.creature_name = cause)) = none := by
      rw [List.find?_eq_none]
      intro k hk
      by_contra hkp
      exact hc (List.any_eq_true.mpr ⟨k, hk, by simpa using hkp⟩)
    rw [find?_append_eq, hnone]
    simp [List.find?, Kill.fresh, Kill.bump_character_id, Kill.bump_creature_name,
      Kill.bump_killed_by]

/-- Upserting a kill row leaves the killed_by counters of every other
creature's row for the same character unchanged. -/
theorem killed_by_of_upsert_other (st : Store) (charId : Nat) (cause cr : Str)
    (f : KillField) (v : Int) (date : Str) (hne : cr ≠ cause) :
    killed_by_of (upsert_kill st charId cause f v date) charId cr =
      killed_by_of st charId cr := by
  unfold upsert_kill killed_by_of
  by_cases hc :
      st.kills.any (fun k => decide (k.character_id = charId ∧ k.creature_name = cause)) = true
  · simp only [hc, if_true]
    rw [show (fun k : Kill =>
        if k.character_id = charId ∧ k.creature_name = cause then k.bump f date else k) =
        (fun k : Kill =>
          if decide (k.character_id = charId ∧ k.creature_name = cause) = true then
            k.bump f date else k) by
      funext k; by_cases h : k.character_id = charId ∧ k.creature_name = cause <;> simp [h]]
    rw [find?_map_eq]
    · cases hfind : st.kills.find?
          (fun k => decide (k.character_id = charId ∧ k.creature_name = cr)) with
      | none => rfl
      | some k =>
        have hp := List.find?_some hfind
        simp only [decide_eq_true_eq] at hp
        have : ¬(k.character_id = charId ∧ k.creature_name = cause) := by
          rintro ⟨_, h2⟩
          exact hne (hp.2 ▸ h2)
        simp [this]
    · intro k
      by_cases h : k.character_id = charId ∧ k.creature_name = cause <;>
        simp [h, Kill.bump_character_id, Kill.bump_creature_name]
  · simp only [hc, if_false, Bool.false_eq_true]
    rw [find?_append_eq]
    cases hfind : st.kills.find?
        (fun k => decide (k.character_id = charId ∧ k.creature_name = cr)) with
    | none =>
      simp only [Option.elim]
      simp [List.find?, Kill.fresh, Kill.bump_character_id, Kill.bump_creature_name,
        hne, Ne.symm hne]
    | some k => rfl

/-- A successful write through the handle applied its store function. -/
theorem dbWrite_ok (w : Store → Store) (d d' : DbState)
    (h : dbWrite w d = (d', none)) : d'.store = w d.store := by
  obtain ⟨st, fuel⟩ := d
  cases fuel with
  | none =>
    simp only [dbWrite] at h
    cases h
    rfl
  | some k =>
    cases k with
    | zero => simp [dbWrite] at h
    | succ k' =>
      simp only [dbWrite] at h
      cases h
      rfl

/-- The store a write leaves behind is the written store or, on a fault, the
untouched one. -/
theorem dbWrite_store_cases (w : Store → Store) (d : DbState) :
    (dbWrite w d).1.store = w d.store ∨ (dbWrite w d).1.store = d.store := by
  obtain ⟨st, fuel⟩ := d
  cases fuel with
  | none => left; rfl
  | some k =>
    cases k with
    | zero => right; rfl
    | succ k' => left; rfl

/-- Two writes sequenced by the question-mark operator that end without an
error applied both store functions in order. -/
theorem dbSeq_two_writes_ok (w1 w2 : Store → Store) (d d' : DbState)
    (h : dbSeq (dbWrite w1 d) (fun d1 => dbWrite w2 d1) = (d', none)) :
    d'.store = w2 (w1 d.store) := by
  obtain ⟨st, fuel⟩ := d
  cases fuel with
  | none =>
    simp only [dbWrite, dbSeq] at h
    cases h
    rfl
  | some k =>
    cases k with
    | zero => simp [dbWrite, dbSeq] at h
    | succ k' =>
      cases k' with
      | zero => simp [dbWrite, dbSeq] at h
      | succ m =>
        simp only [dbWrite, dbSeq] at h
        cases h
        rfl

/-- C10: applying a fallen event whose fallen name differs from the scanned
character's name (ASCII-case-insensitively) changes nothing at all, and
when the names match it adds one death to the character and one killed_by
count to the causing creature's kill row, leaving every other creature's
killed_by count for that character unchanged. -/
theorem c10_fallen_name_gate :
    (∀ (creatureDb : CreatureDb) (d : DbState) (charId : Nat)
        (charName name cause dateStr : Str),
      eq_ignore_ascii_case name charName = false →
        apply_event creatureDb d charId charName dateStr (LogEvent.fallen name cause) =
          (d, none, 0)) ∧
    (∀ (creatureDb : CreatureDb) (d d' : DbState) (charId : Nat)
        (charName name cause dateStr : Str) (n : Nat) (c : Character),
      eq_ignore_ascii_case name charName = true →
      apply_event creatureDb d charId charName dateStr (LogEvent.fallen name cause) =
        (d', none, n) →
      get_character_by_id d.store charId = some c →
      (∃ c', get_character_by_id d'.store charId = some c' ∧ c'.deaths = c.deaths + 1) ∧
      killed_by_of d'.store charId cause = killed_by_of d.store charId cause + 1 ∧
      (∀ cr, cr ≠ cause →
        killed_by_of d'.store charId cr = killed_by_of d.store charId cr)) := by
  constructor
  · intro creatureDb d charId charName name cause dateStr hmiss
    simp [apply_event, hmiss]
  · intro creatureDb d d' charId charName name cause dateStr n c hmatch hok hc
    have hpair :
        dbSeq
          (dbWrite (fun st =>
            upsert_kill st charId cause KillField.killed_by_count 0 dateStr) d)
          (fun d1 => dbWrite
            (fun st => increment_character_field st charId CharField.deaths 1) d1) =
        (d', none) := by
      simp only [apply_event, hmatch, if_true, writeArm2] at hok
      cases hd : dbSeq
          (dbWrite (fun st =>
            upsert_kill st charId cause KillField.killed_by_count 0 dateStr) d)
          (fun d1 => dbWrite
            (fun st => increment_character_field st charId CharField.deaths 1) d1) with
      | mk d1 e =>
        rw [hd] at hok
        simp only [Prod.mk.injEq] at hok
        obtain ⟨h1, h2, _⟩ := hok
        rw [h1, h2]
    have key := dbSeq_two_writes_ok _ _ _ _ hpair
    refine ⟨?_, ?_, ?_⟩
    · rw [key]
      unfold increment_character_field
      rw [get_character_by_id_updateChar_self,
        get_character_by_id_congr d.store _ charId (upsert_kill_characters _ _ _ _ _ _), hc]
      exact ⟨c.addField CharField.deaths 1, rfl, by simp [Character.addField]⟩
    · rw [key]
      unfold increment_character_field
      rw [killed_by_of_congr _ _ _ _ (rfl :
          (updateChar (upsert_kill d.store charId cause KillField.killed_by_count 0 dateStr)
            charId (fun c => c.addField CharField.deaths 1)).kills =
          (upsert_kill d.store charId cause KillField.killed_by_count 0 dateStr).kills)]
      exact killed_by_of_upsert_self _ _ _ _ _
    · intro cr hcr
      rw [key]
      unfold increment_character_field
      rw [killed_by_of_congr _ _ _ _ (rfl :
          (updateChar (upsert_kill d.store charId cause KillField.killed_by_count 0 dateStr)
            charId (fun c => c.addField CharField.deaths 1)).kills =
          (upsert_kill d.store charId cause KillField.killed_by_count 0 dateStr).kills)]
      exact killed_by_of_upsert_other _ _ _ _ _ _ _ hcr

/-- Witness for C10 at a concrete store: scanning character Fen, the event
Gandalf-has-fallen leaves Fen's row alone, and the event Fen-has-fallen adds
the death and the killed_by count. -/
theorem c10_fallen_witness :
    apply_event (fun _ => none)
        { store := (get_or_create_character Store.empty (str "Fen")).1, fuel := none }
        1 (str "Fen") [] (LogEvent.fallen (str "Gandalf") (str "Rat")) =
      ({ store := (get_or_create_character Store.empty (str "Fen")).1, fuel := none }, none, 0) ∧
    (∃ c', get_character_by_id
        (apply_event (fun _ => none)
          { store := (get_or_create_character Store.empty (str "Fen")).1, fuel := none }
          1 (str "Fen") [] (LogEvent.fallen (str "fen") (str "Rat"))).1.store 1 = some c' ∧
      c'.deaths = 0 + 1) := by
  constructor
  · exact c10_fallen_name_gate.1 (fun _ => none) _ 1 (str "Fen") (str "Gandalf") (str "Rat") []
      (by rfl)
  · exact (c10_fallen_name_gate.2 (fun _ => none)
      { store := (get_or_create_character Store.empty (str "Fen")).1, fuel := none }
      ((apply_event (fun _ => none)
        { store := (get_or_create_character Store.empty (str "Fen")).1, fuel := none }
        1 (str "Fen") [] (LogEvent.fallen (str "fen") (str "Rat"))).1)
      1 (str "Fen") (str "fen") (str "Rat") []
      1 (Character.new (str "Fen")) (by rfl) (by rfl) (by rfl)).1

/-- The logins counter of a characters row, as the claims read it. -/
def loginsOf (st : Store) (j : Nat) : Option Int :=
  (get_character_by_id st j).map (fun c => c.logins)

/-- Two stores with the same characters table agree on every logins
reading. -/
theorem loginsOf_congr (st st' : Store) (j : Nat) (h : st'.characters = st.characters) :
    loginsOf st' j = loginsOf st j := by
  unfold loginsOf
  rw [get_character_by_id_congr st st' j h]

/-- updateChar with a logins-preserving row function preserves every logins
reading. -/
theorem loginsOf_updateChar (st : Store) (id j : Nat) (f : Character → Character)
    (hf : ∀ c, (f c).logins = c.logins) :
    loginsOf (updateChar st id f) j = loginsOf st j := by
  by_cases h : j = id
  · subst h
    unfold loginsOf
    rw [get_character_by_id_updateChar_self]
    cases get_character_by_id st j <;> simp [hf]
  · unfold loginsOf
    rw [get_character_by_id_updateChar_other st id j f h]

/-- Adding to any counter other than logins keeps logins. -/
theorem addField_logins_ne (c : Character) (f : CharField) (a : Int)
    (hf : f ≠ CharField.logins) : (c.addField f a).logins = c.logins := by
  cases f <;> first | exact absurd rfl hf | rfl

/-- Incrementing any counter other than logins preserves every logins
reading. -/
theorem loginsOf_increment_ne (st : Store) (id j : Nat) (f : CharField) (a : Int)
    (hf : f ≠ CharField.logins) :
    loginsOf (increment_character_field st id f a) j = loginsOf st j :=
  loginsOf_updateChar st id j _ (fun c => addField_logins_ne c f a hf)

/-- Incrementing logins bumps exactly the addressed reading. -/
theorem loginsOf_increment_logins (st : Store) (id : Nat) (a : Int) :
    loginsOf (increment_character_field st id CharField.logins a) id =
      (loginsOf st id).map (fun v => v + a) := by
  unfold loginsOf increment_character_field
  rw [get_character_by_id_updateChar_self]
  cases get_character_by_id st id <;> simp [Character.addField]

/-- A writeArm over a logins-preserving store function preserves every
logins reading whether the write lands or faults. -/
theorem loginsOf_writeArm (w : Store → Store) (d : DbState) (n : Nat) (j : Nat)
    (hw : ∀ st, loginsOf (w st) j = loginsOf st j) :
    loginsOf (writeArm w d n).1.store j = loginsOf d.store j := by
  unfold writeArm
  rcases dbWrite_store_cases w d with h | h
  · simp only [h]; exact hw _
  · simp only [h]

/-- The store after two sequenced writes is one of the three partial
applications, depending on where the fault schedule strikes. -/
theorem dbSeq_two_writes_store_cases (w1 w2 : Store → Store) (d : DbState) :
    (dbSeq (dbWrite w1 d) (fun d1 => dbWrite w2 d1)).1.store = w2 (w1 d.store) ∨
    (dbSeq (dbWrite w1 d) (fun d1 => dbWrite w2 d1)).1.store = w1 d.store ∨
    (dbSeq (dbWrite w1 d) (fun d1 => dbWrite w2 d1)).1.store = d.store := by
  obtain ⟨st, fuel⟩ := d
  cases fuel with
  | none => left; rfl
  | some k =>
    cases k with
    | zero => right; right; rfl
    | succ k' =>
      cases k' with
      | zero => right; left; rfl
      | succ m => left; rfl

/-- A writeArm2 over two logins-preserving store functions preserves every
logins reading. -/
theorem loginsOf_writeArm2 (w1 w2 : Store → Store) (d : DbState) (n : Nat) (j : Nat)
    (hw1 : ∀ st, loginsOf (w1 st) j = loginsOf st j)
    (hw2 : ∀ st, loginsOf (w2 st) j = loginsOf st j) :
    loginsOf (writeArm2 w1 w2 d n).1.store j = loginsOf d.store j := by
  unfold writeArm2
  rcases dbSeq_two_writes_store_cases w1 w2 d with h | h | h
  · simp only [h]; rw [hw2, hw1]
  · simp only [h]; exact hw1 _
  · simp only [h]

/-- Applying any classified event never changes any logins reading: the one
login per file comes only from the explicit increment at the end of
scan_bytes. -/
theorem apply_event_preserves_logins (creatureDb : CreatureDb) (d : DbState)
    (charId : Nat) (charName dateStr : Str) (ev : LogEvent) (j : Nat) :
    loginsOf (apply_event creatureDb d charId charName dateStr ev).1.store j =
      loginsOf d.store j := by
  have hkill : ∀ st cid cr f v dt, loginsOf (upsert_kill st cid cr f v dt) j = loginsOf st j :=
    fun st cid cr f v dt => loginsOf_congr st _ j (upsert_kill_characters st cid cr f v dt)
  have htr : ∀ st cid t dt, loginsOf (upsert_trainer_rank st cid t dt) j = loginsOf st j :=
    fun st cid t dt => loginsOf_congr st _ j (upsert_trainer_rank_characters st cid t dt)
  have hal : ∀ st cid t dt a, loginsOf (upsert_apply_learning st cid t dt a) j = loginsOf st j :=
    fun st cid t dt a => loginsOf_congr st _ j (upsert_apply_learning_characters st cid t dt a)
  have halu : ∀ st cid t dt, loginsOf (upsert_apply_learning_unknown st cid t dt) j = loginsOf st j :=
    fun st cid t dt => loginsOf_congr st _ j (upsert_apply_learning_unknown_characters st cid t dt)
  have hlasty : ∀ st cid cr t dt, loginsOf (upsert_lasty st cid cr t dt) j = loginsOf st j :=
    fun st cid cr t dt => loginsOf_congr st _ j (upsert_lasty_characters st cid cr t dt)
  have hflasty : ∀ st cid cr t dt, loginsOf (finish_lasty st cid cr t dt) j = loginsOf st j :=
    fun st cid cr t dt => loginsOf_congr st _ j (finish_lasty_characters st cid cr t dt)
  have hclasty : ∀ st cid, loginsOf (complete_lasty st cid) j = loginsOf st j :=
    fun st cid => loginsOf_congr st _ j (complete_lasty_characters st cid)
  have hsd : ∀ st cid dt, loginsOf (update_start_date st cid dt) j = loginsOf st j := by
    intro st cid dt
    unfold update_start_date
    apply loginsOf_updateChar
    intro c
    cases c.start_date with
    | none => rfl
    | some dd => by_cases h : strLt dt dd = true <;> simp [h]
  have hprof : ∀ st cid p, loginsOf (update_character_profession st cid p) j = loginsOf st j := by
    intro st cid p
    exact loginsOf_updateChar st cid j _ (fun c => rfl)
  cases ev with
  | ignored => rfl
  | coinBalance a => rfl
  | experienceGain => rfl
  | clanningChange a b => rfl
  | disconnect => rfl
  | studyProgress a b => rfl
  | studyAbandon a => rfl
  | recovered a => rfl
  | login name =>
    by_cases hd : dateStr.isEmpty = true
    · simp only [apply_event, if_pos hd]
    · simp only [apply_event, if_neg hd]
      exact loginsOf_writeArm _ d 1 j (fun st => hsd st charId dateStr)
  | reconnect name =>
    by_cases hd : dateStr.isEmpty = true
    · simp only [apply_event, if_pos hd]
    · simp only [apply_event, if_neg hd]
      exact loginsOf_writeArm _ d 1 j (fun st => hsd st charId dateStr)
  | soloKill creature verb =>
    exact loginsOf_writeArm _ d 1 j (fun st => hkill st charId creature _ _ dateStr)
  | assistedKill creature verb =>
    exact loginsOf_writeArm _ d 1 j (fun st => hkill st charId creature _ _ dateStr)
  | fallen name cause =>
    by_cases hm : eq_ignore_ascii_case name charName = true
    · simp only [apply_event, if_pos hm]
      exact loginsOf_writeArm2 _ _ d 1 j (fun st => hkill st charId cause _ _ dateStr)
        (fun st => loginsOf_increment_ne st charId j CharField.deaths 1 (by simp))
    · simp only [apply_event, if_neg hm]
  | firstDepart =>
    exact loginsOf_writeArm _ d 1 j
      (fun st => loginsOf_increment_ne st charId j CharField.departs 1 (by simp))
  | depart count =>
    exact loginsOf_writeArm _ d 1 j
      (fun st => loginsOf_updateChar st charId j _ (fun c => rfl))
  | trainerRank t msg =>
    exact loginsOf_writeArm _ d 1 j (fun st => htr st charId t dateStr)
  | coinsPickedUp amount =>
    exact loginsOf_writeArm _ d 1 j
      (fun st => loginsOf_increment_ne st charId j CharField.coins_picked_up amount (by simp))
  | lootShare item worth amount lootType =>
    cases lootType with
    | fur =>
      exact loginsOf_writeArm2 _ _ d 1 j
        (fun st => loginsOf_increment_ne st charId j CharField.fur_coins amount (by simp))
        (fun st => loginsOf_increment_ne st charId j CharField.fur_worth worth (by simp))
    | blood =>
      exact loginsOf_writeArm2 _ _ d 1 j
        (fun st => loginsOf_increment_ne st charId j CharField.blood_coins amount (by simp))
        (fun st => loginsOf_increment_ne st charId j CharField.blood_worth worth (by simp))
    | mandible =>
      exact loginsOf_writeArm2 _ _ d 1 j
        (fun st => loginsOf_increment_ne st charId j CharField.mandible_coins amount (by simp))
        (fun st => loginsOf_increment_ne st charId j CharField.mandible_worth worth (by simp))
    | other =>
      exact loginsOf_writeArm _ d 1 j
        (fun st => loginsOf_increment_ne st charId j CharField.bounty_coins amount (by simp))
  | studyCharge amount =>
    exact loginsOf_writeArm _ d 1 j
      (fun st => loginsOf_increment_ne st charId j CharField.chest_coins amount (by simp))
  | bellBroken =>
    exact loginsOf_writeArm _ d 1 j
      (fun st => loginsOf_increment_ne st charId j CharField.bells_broken 1 (by simp))
  | bellUsed =>
    exact loginsOf_writeArm _ d 1 j
      (fun st => loginsOf_increment_ne st charId j CharField.bells_used 1 (by simp))
  | chainBreak =>
    exact loginsOf_writeArm _ d 1 j
      (fun st => loginsOf_increment_ne st charId j CharField.chains_broken 1 (by simp))
  | chainShatter =>
    exact loginsOf_writeArm _ d 1 j
      (fun st => loginsOf_increment_ne st charId j CharField.chains_broken 1 (by simp))
  | chainSnap =>
    exact loginsOf_writeArm _ d 1 j
      (fun st => loginsOf_increment_ne st charId j CharField.chains_broken 1 (by simp))
  | chainUsed t =>
    exact loginsOf_writeArm _ d 1 j
      (fun st => loginsOf_increment_ne st charId j CharField.chains_used 1 (by simp))
  | shieldstoneUsed =>
    exact loginsOf_writeArm _ d 1 j
      (fun st => loginsOf_increment_ne st charId j CharField.shieldstones_used 1 (by simp))
  | shieldstoneBroken =>
    exact loginsOf_writeArm _ d 1 j
      (fun st => loginsOf_increment_ne st charId j CharField.shieldstones_broken 1 (by simp))
  | etherealPortalOpened =>
    exact loginsOf_writeArm _ d 1 j
      (fun st => loginsOf_increment_ne st charId j CharField.ethereal_portals 1 (by simp))
  | etherealPortalStoneUsed =>
    exact loginsOf_writeArm2 _ _ d 1 j
      (fun st => loginsOf_increment_ne st charId j CharField.ethereal_portals 1 (by simp))
      (fun st => loginsOf_increment_ne st charId j CharField.eps_broken 1 (by simp))
  | karmaReceived good =>
    cases good
    · exact loginsOf_writeArm _ d 1 j
        (fun st => loginsOf_increment_ne st charId j CharField.bad_karma 1 (by simp))
    · exact loginsOf_writeArm _ d 1 j
        (fun st => loginsOf_increment_ne st charId j CharField.good_karma 1 (by simp))
  | esteemGain =>
    exact loginsOf_writeArm _ d 1 j
      (fun st => loginsOf_increment_ne st charId j CharField.esteem 1 (by simp))
  | professionAnnouncement name profession =>
    by_cases hm : eq_ignore_ascii_case name charName = true
    · simp only [apply_event, if_pos hm]
      exact loginsOf_writeArm _ d 1 j (fun st => hprof st charId profession)
    · simp only [apply_event, if_neg hm]
  | untrained =>
    exact loginsOf_writeArm _ d 1 j
      (fun st => loginsOf_increment_ne st charId j CharField.untraining_count 1 (by simp))
  | applyLearningRank characterName trainerName isFull =>
    by_cases hm : eq_ignore_ascii_case characterName charName = true
    · cases isFull
      · simp only [apply_event, if_pos hm]
        exact loginsOf_writeArm _ d 1 j (fun st => halu st charId trainerName dateStr)
      · simp only [apply_event, if_pos hm]
        exact loginsOf_writeArm _ d 1 j (fun st => hal st charId trainerName dateStr 10)
    · simp only [apply_event, if_neg hm]
  | lastyBeginStudy creature lastyType =>
    exact loginsOf_writeArm _ d 1 j (fun st => hlasty st charId creature lastyType dateStr)
  | lastyProgress creature lastyType =>
    exact loginsOf_writeArm _ d 1 j (fun st => hlasty st charId creature lastyType dateStr)
  | lastyFinished creature lastyType =>
    exact loginsOf_writeArm _ d 1 j (fun st => hflasty st charId creature lastyType dateStr)
  | lastyCompleted t =>
    exact loginsOf_writeArm _ d 1 j (fun st => hclasty st charId)

/-- The line loop never changes any logins reading, whatever the lines
contain — including login and reconnect lines. -/
theorem scan_lines_preserves_logins (creatureDb : CreatureDb) (trainerDb : TrainerDb)
    (charId : Nat) (charName filePath : Str) (il : Bool) (j : Nat) :
    ∀ (lines : List Str) (d : DbState) (acc : LineAcc),
      loginsOf (scan_lines creatureDb trainerDb d charId charName filePath il
        lines acc).1.store j = loginsOf d.store j := by
  intro lines
  induction lines with
  | nil => intro d acc; rfl
  | cons line rest ih =>
    intro d acc
    have hp := apply_event_preserves_logins creatureDb d charId charName (lineDate line)
      (classify_line trainerDb (lineMessage line)) j
    simp only [scan_lines]
    cases happ : apply_event creatureDb d charId charName (lineDate line)
        (classify_line trainerDb (lineMessage line)) with
    | mk d1 p =>
      rw [happ] at hp
      cases p with
      | mk e delta =>
        cases e with
        | some err => exact hp
        | none => rw [ih]; exact hp

/-- update_start_date preserves every logins reading. -/
theorem loginsOf_update_start_date (st : Store) (cid j : Nat) (dt : Str) :
    loginsOf (update_start_date st cid dt) j = loginsOf st j := by
  unfold update_start_date
  apply loginsOf_updateChar
  intro c
  cases c.start_date with
  | none => rfl
  | some dd => by_cases h : strLt dt dd = true <;> simp [h]

/-- C9: whenever scan_bytes completes a file without error, the scanned
character's logins counter is exactly one higher than before, no matter what
the file contains — zero, one or many login or reconnect lines add nothing
beyond the single per-file increment. -/
theorem c9_exactly_one_login_per_file (creatureDb : CreatureDb) (trainerDb : TrainerDb)
    (d d' : DbState) (bytes : List Nat) (charId : Nat) (charName filePath : Str)
    (indexLines : Bool) (fr : FileResult) (c : Character)
    (hok : scan_bytes creatureDb trainerDb d bytes charId charName filePath indexLines =
      (d', Except.ok fr))
    (hc : get_character_by_id d.store charId = some c) :
    ∃ c', get_character_by_id d'.store charId = some c' ∧ c'.logins = c.logins + 1 := by
  have hfinal : loginsOf d'.store charId = some (c.logins + 1) := by
    unfold scan_bytes at hok
    cases hsl : scan_lines creatureDb trainerDb d charId charName filePath indexLines
        (linesOf (decode_log_bytes bytes)) LineAcc.init with
    | mk d1 r =>
    rw [hsl] at hok
    have hd1 : loginsOf d1.store charId = some c.logins := by
      have hpres := scan_lines_preserves_logins creatureDb trainerDb charId charName filePath
        indexLines charId (linesOf (decode_log_bytes bytes)) d LineAcc.init
      rw [hsl] at hpres
      simp only at hpres
      rw [hpres]
      unfold loginsOf
      rw [hc]
      rfl
    cases r with
    | error e => simp at hok
    | ok acc =>
    simp only at hok
    cases hw : dbWrite (fun st =>
        increment_character_field st charId CharField.logins 1) d1 with
    | mk d2 e2 =>
    rw [hw] at hok
    cases e2 with
    | some err => simp at hok
    | none =>
    have hd2 : loginsOf d2.store charId = some (c.logins + 1) := by
      rw [dbWrite_ok _ _ _ hw, loginsOf_increment_logins, hd1]
      rfl
    simp only at hok
    have hstep3 : ∀ (p : DbState × Option DbErr),
        (if acc.found_login = true then (d2, (none : Option DbErr))
         else
          match acc.first_date with
          | some ts => dbWrite (fun st => update_start_date st charId ts) d2
          | none => (d2, none)) = p →
        p.2 = none → loginsOf p.1.store charId = some (c.logins + 1) := by
      intro p hp hpn
      by_cases hfl : acc.found_login = true
      · rw [if_pos hfl] at hp
        rw [← hp]
        exact hd2
      · rw [if_neg hfl] at hp
        cases hfd : acc.first_date with
        | none =>
          simp only [hfd] at hp
          rw [← hp]
          exact hd2
        | some ts =>
          simp only [hfd] at hp
          rcases dbWrite_store_cases (fun st => update_start_date st charId ts) d2 with h | h <;>
            rw [hp] at h <;> rw [h]
          · rw [loginsOf_update_start_date]
            exact hd2
          · exact hd2
    cases hafter : (if acc.found_login = true then (d2, (none : Option DbErr))
        else
          match acc.first_date with
          | some ts => dbWrite (fun st => update_start_date st charId ts) d2
          | none => (d2, none)) with
    | mk d3 e3 =>
    rw [hafter] at hok
    cases e3 with
    | some err => simp at hok
    | none =>
    have hd3 : loginsOf d3.store charId = some (c.logins + 1) :=
      hstep3 (d3, none) hafter rfl
    simp only at hok
    by_cases hidx : (indexLines = true ∧ ¬acc.log_lines.isEmpty = true)
    · rw [if_pos hidx] at hok
      cases hw4 : dbWrite (fun st =>
          { st with log_lines := st.log_lines ++ acc.log_lines }) d3 with
      | mk d4 e4 =>
      rw [hw4] at hok
      cases e4 with
      | some err => simp at hok
      | none =>
        simp only [Prod.mk.injEq] at hok
        rw [← hok.1]
        rcases dbWrite_store_cases (fun st =>
            { st with log_lines := st.log_lines ++ acc.log_lines }) d3 with h | h <;>
          rw [hw4] at h <;> simp only at h <;> rw [h]
        · exact (loginsOf_congr d3.store _ charId rfl).trans hd3
        · exact hd3
    · rw [if_neg hidx] at hok
      simp only [Prod.mk.injEq] at hok
      rw [← hok.1]
      exact hd3
  cases hget : get_character_by_id d'.store charId with
  | none => unfold loginsOf at hfinal; rw [hget] at hfinal; simp at hfinal
  | some c' =>
    unfold loginsOf at hfinal
    rw [hget] at hfinal
    simp only [Option.map_some'] at hfinal
    exact ⟨c', rfl, by injection hfinal⟩

/-- Witness for C9: a file whose text contains both a login line and a
reconnect line still adds exactly one login. -/
theorem c9_login_witness :
    ∃ c', get_character_by_id
        (scan_bytes (fun _ => none) (fun _ => none)
          { store := (get_or_create_character Store.empty (str "Fen")).1, fuel := none }
          ((str "Welcome to Clan Lord, Fen!\nWelcome back, Fen!\n").map Char.toNat)
          1 (str "Fen") (str "log.txt") false).1.store 1 = some c' ∧
      c'.logins = 0 + 1 :=
  c9_exactly_one_login_per_file (fun _ => none) (fun _ => none)
    { store := (get_or_create_character Store.empty (str "Fen")).1, fuel := none }
    ((scan_bytes (fun _ => none) (fun _ => none)
      { store := (get_or_create_character Store.empty (str "Fen")).1, fuel := none }
      ((str "Welcome to Clan Lord, Fen!\nWelcome back, Fen!\n").map Char.toNat)
      1 (str "Fen") (str "log.txt") false).1)
    ((str "Welcome to Clan Lord, Fen!\nWelcome back, Fen!\n").map Char.toNat)
    1 (str "Fen") (str "log.txt") false
    { lines_parsed := 2, events_found := 2 }
    (Character.new (str "Fen"))
    (by rfl) (by rfl)

/-- C5: the single-level invariant on merged_into is violated in a reachable
state.  merge_characters rejects a merged target and a merged source, but it
never rejects a source that other characters are merged into: after creating
A, B and C, merging A into B and then merging B into C both succeed, and the
final store holds the chain A points to B points to C — B is merged yet
still has A merged into it, so reads through C silently lose A's rows. -/
theorem c5_merge_chain_reachable :
    (merge_characters
        (get_or_create_character
          (get_or_create_character
            (get_or_create_character Store.empty (str "A")).1 (str "B")).1 (str "C")).1
        [1] 2).2 = none ∧
    (merge_characters
        (merge_characters
          (get_or_create_character
            (get_or_create_character
              (get_or_create_character Store.empty (str "A")).1 (str "B")).1 (str "C")).1
          [1] 2).1
        [2] 3).2 = none ∧
    ∃ c1 c2,
      get_character_by_id
          (merge_characters
            (merge_characters
              (get_or_create_character
                (get_or_create_character
                  (get_or_create_character Store.empty (str "A")).1 (str "B")).1
                (str "C")).1
              [1] 2).1
            [2] 3).1 1 = some c1 ∧
      c1.merged_into = some 2 ∧
      get_character_by_id
          (merge_characters
            (merge_characters
              (get_or_create_character
                (get_or_create_character
                  (get_or_create_character Store.empty (str "A")).1 (str "B")).1
                (str "C")).1
              [1] 2).1
            [2] 3).1 2 = some c2 ∧
      c2.merged_into = some 3 :=
  ⟨rfl, rfl, _, _, rfl, rfl, rfl, rfl⟩

/-- A source list containing the target, or containing a source that is
already merged (or missing), makes the merge_sources fold stop with an
error, wherever in the list the offender sits. -/
theorem merge_sources_error (target : Nat) :
    ∀ (srcs : List Nat) (st : Store),
      (∃ s ∈ srcs, s = target ∨ get_character_by_id st s = none ∨
        ∃ cs, get_character_by_id st s = some cs ∧ cs.merged_into.isSome = true) →
      ∃ e, merge_sources st target srcs = Except.error e := by
  intro srcs
  induction srcs with
  | nil =>
    intro st hbad
    obtain ⟨s, hs, _⟩ := hbad
    exact absurd hs (List.not_mem_nil s)
  | cons s0 rest ih =>
    intro st hbad
    by_cases h0 : s0 = target
    · exact ⟨DataErr.selfMerge s0, by simp [merge_sources, h0]⟩
    · cases hget : get_character_by_id st s0 with
      | none => exact ⟨DataErr.sourceNotFound s0, by simp [merge_sources, h0, hget]⟩
      | some cs0 =>
        by_cases hm0 : cs0.merged_into.isSome = true
        · exact ⟨DataErr.sourceMerged s0, by simp [merge_sources, h0, hget, hm0]⟩
        · obtain ⟨s, hs, hbs⟩ := hbad
          have hs_ne : s ≠ s0 := by
            rintro rfl
            rcases hbs with h | h | ⟨cs, hcs, hcsm⟩
            · exact h0 h
            · rw [hget] at h; exact Option.noConfusion h
            · rw [hget] at hcs
              cases hcs
              exact hm0 hcsm
          have hs_rest : s ∈ rest := by
            cases List.mem_cons.mp hs with
            | inl h => exact absurd h hs_ne
            | inr h => exact h
          have hbad' : ∃ s ∈ rest,
              s = target ∨
              get_character_by_id
                (updateChar st s0 (fun c => { c with merged_into := some target })) s = none ∨
              ∃ cs, get_character_by_id
                  (updateChar st s0 (fun c => { c with merged_into := some target })) s =
                some cs ∧ cs.merged_into.isSome = true := by
            refine ⟨s, hs_rest, ?_⟩
            rw [get_character_by_id_updateChar_other st s0 s _ hs_ne]
            exact hbs
          obtain ⟨e, he⟩ := ih _ hbad'
          refine ⟨e, ?_⟩
          simp only [merge_sources, h0, hget, hm0]
          simpa using he

/-- C4: merge_characters fails — and, through the transaction rollback,
returns the store unchanged with no pointer set and no aggregate
recomputed — whenever the target is itself merged, any source equals the
target, or any source is already merged. -/
theorem c4_merge_validation (st : Store) (sourceIds : List Nat) (target : Nat)
    (hbad :
      (∃ ct, get_character_by_id st target = some ct ∧ ct.merged_into.isSome = true) ∨
      target ∈ sourceIds ∨
      (∃ s ∈ sourceIds, ∃ cs, get_character_by_id st s = some cs ∧
        cs.merged_into.isSome = true)) :
    (merge_characters st sourceIds target).2.isSome = true ∧
    (merge_characters st sourceIds target).1 = st := by
  have hinner : ∃ e, merge_characters_inner st sourceIds target = Except.error e := by
    cases hget : get_character_by_id st target with
    | none => exact ⟨DataErr.targetNotFound target, by simp [merge_characters_inner, hget]⟩
    | some ct =>
      by_cases hm : ct.merged_into.isSome = true
      · exact ⟨DataErr.targetMerged, by simp [merge_characters_inner, hget, hm]⟩
      · have hsrc : ∃ s ∈ sourceIds, s = target ∨ get_character_by_id st s = none ∨
            ∃ cs, get_character_by_id st s = some cs ∧ cs.merged_into.isSome = true := by
          rcases hbad with ⟨ct', hct', hctm⟩ | htgt | ⟨s, hs, cs, hcs, hcsm⟩
          · rw [hget] at hct'
            cases hct'
            exact absurd hctm hm
          · exact ⟨target, htgt, Or.inl rfl⟩
          · exact ⟨s, hs, Or.inr (Or.inr ⟨cs, hcs, hcsm⟩)⟩
        obtain ⟨e, he⟩ := merge_sources_error target sourceIds st hsrc
        refine ⟨e, ?_⟩
        simp [merge_characters_inner, hget, hm, he]
  obtain ⟨e, he⟩ := hinner
  unfold merge_characters
  rw [he]
  exact ⟨rfl, rfl⟩

/-- Witness for C4: merging a character into itself fails and changes
nothing. -/
theorem c4_merge_validation_witness :
    (merge_characters (get_or_create_character Store.empty (str "A")).1 [1] 1).2.isSome = true ∧
    (merge_characters (get_or_create_character Store.empty (str "A")).1 [1] 1).1 =
      (get_or_create_character Store.empty (str "A")).1 :=
  c4_merge_validation (get_or_create_character Store.empty (str "A")).1 [1] 1
    (Or.inr (Or.inl (by decide)))

/-- A store in which no row carries a merged_into pointer has no merge
sources for anyone. -/
theorem merged_source_ids_nil (st : Store) (T : Nat)
    (hall : ∀ p ∈ st.characters, p.2.merged_into = none) :
    merged_source_ids st T = [] := by
  unfold merged_source_ids
  have hfil : st.characters.filter (fun p => decide (p.2.merged_into = some T)) = [] := by
    rw [List.filter_eq_nil]
    intro p hp
    simp [hall p hp]
  rw [hfil]
  rfl

/-- Setting the pointer of the one row keyed S (in a pointer-free store with
distinct keys) makes S the single merge source of the pointed-at target. -/
theorem filter_ptr_update (S T : Nat) (f : Character → Character)
    (hf : ∀ c, (f c).merged_into = some T) :
    ∀ l : List (Nat × Character),
      (∀ p ∈ l, p.2.merged_into = none) →
      (l.map Prod.fst).Nodup →
      S ∈ l.map Prod.fst →
      ((l.map (fun p => if p.1 = S then (p.1, f p.2) else p)).filter
        (fun p => decide (p.2.merged_into = some T))).map Prod.fst = [S] := by
  intro l
  induction l with
  | nil => intro _ _ hmem; exact absurd hmem (by simp)
  | cons p t ih =>
    intro hall hnd hmem
    by_cases hp : p.1 = S
    · have htS : ∀ q ∈ t, q.1 ≠ S := by
        intro q hq hqS
        have h1 : (p.1 :: t.map Prod.fst).Nodup := by simpa using hnd
        apply (List.nodup_cons.mp h1).1
        rw [hp, ← hqS]
        exact List.mem_map_of_mem Prod.fst hq
      have htail : (t.map (fun q => if q.1 = S then (q.1, f q.2) else q)).filter
          (fun q => decide (q.2.merged_into = some T)) = [] := by
        rw [List.filter_eq_nil]
        intro q hq
        obtain ⟨q0, hq0, hq0e⟩ := List.mem_map.mp hq
        rw [if_neg (htS q0 hq0)] at hq0e
        subst hq0e
        simp [hall q0 (List.mem_cons_of_mem p hq0)]
      simp only [List.map_cons, if_pos hp, List.filter_cons]
      rw [if_pos (by simp [hf])]
      simp only [List.map_cons, htail]
      rw [hp]
      rfl
    · have hmem' : S ∈ t.map Prod.fst := by
        rcases List.mem_map.mp hmem with ⟨q, hq, hqe⟩
        rcases List.mem_cons.mp hq with h | h
        · exact absurd (h ▸ hqe) hp
        · exact hqe ▸ List.mem_map_of_mem Prod.fst h
      have h1 : (p.1 :: t.map Prod.fst).Nodup := by simpa using hnd
      have := ih (fun q hq => hall q (List.mem_cons_of_mem p hq))
        ((List.nodup_cons.mp h1).2) hmem'
      simp only [List.map_cons, if_neg hp, List.filter_cons]
      rw [if_neg (by simp [hall p (List.mem_cons_self p t)])]
      exact this

/-- merged_source_ids reads only pointers and keys, so a row update that
keeps the pointer keeps the source list. -/
theorem merged_source_ids_updateChar (st : Store) (id T : Nat) (f : Character → Character)
    (hf : ∀ c, (f c).merged_into = c.merged_into) :
    merged_source_ids (updateChar st id f) T = merged_source_ids st T := by
  unfold merged_source_ids updateChar
  simp only
  induction st.characters with
  | nil => rfl
  | cons p t ih =>
    by_cases hp : p.1 = id
    · simp only [List.map_cons, if_pos hp, List.filter_cons, hf]
      by_cases hsel : p.2.merged_into = some T
      · rw [if_pos (by simp [hsel]), if_pos (by simp [hsel])]
        simp only [List.map_cons, ih]
      · rw [if_neg (by simp [hsel]), if_neg (by simp [hsel])]
        exact ih
    · simp only [List.map_cons, if_neg hp, List.filter_cons]
      by_cases hsel : p.2.merged_into = some T
      · rw [if_pos (by simp [hsel]), if_pos (by simp [hsel])]
        simp only [List.map_cons, ih]
      · rw [if_neg (by simp [hsel]), if_neg (by simp [hsel])]
        exact ih

/-- Clearing an already-clear pointer changes nothing. -/
theorem clear_merged_eq (c : Character) (h : c.merged_into = none) :
    { c with merged_into := none } = c := by
  cases c
  simp_all

/-- Writing a coin level that is already stored changes nothing. -/
theorem set_coin_eq (c : Character) (v : Int) (h : c.coin_level = v) :
    { c with coin_level := v } = c := by
  cases c
  simp_all

/-- What a successful single-source merge leaves behind: the source points at
the target and the target's coin_level is recomputed as the trainer-rank sum
over both rows. -/
theorem merge_single_eq (st : Store) (S T : Nat) (ct cs : Character)
    (hTS : S ≠ T)
    (hall : ∀ p ∈ st.characters, p.2.merged_into = none)
    (hnd : (st.characters.map Prod.fst).Nodup)
    (hT : get_character_by_id st T = some ct)
    (hS : get_character_by_id st S = some cs) :
    merge_characters st [S] T =
      (updateChar (updateChar st S (fun c => { c with merged_into := some T })) T
         (fun c => { c with coin_level := trainer_rank_sum st [T, S] }), none) := by
  have hctm : ct.merged_into = none := by
    obtain ⟨p, hfind, hp2⟩ := Option.map_eq_some'.mp hT
    exact hp2 ▸ hall p (List.mem_of_find?_eq_some hfind)
  have hcsm : cs.merged_into = none := by
    obtain ⟨p, hfind, hp2⟩ := Option.map_eq_some'.mp hS
    exact hp2 ▸ hall p (List.mem_of_find?_eq_some hfind)
  have hmemS : S ∈ st.characters.map Prod.fst := by
    obtain ⟨p, hfind, hp2⟩ := Option.map_eq_some'.mp hS
    have h1 : p.1 = S := by simpa using List.find?_some hfind
    exact h1 ▸ List.mem_map_of_mem Prod.fst (List.mem_of_find?_eq_some hfind)
  have hmsi : merged_source_ids
      (updateChar st S (fun c => { c with merged_into := some T })) T = [S] :=
    filter_ptr_update S T (fun c => { c with merged_into := some T })
      (fun c => rfl) st.characters hall hnd hmemS
  simp only [merge_characters, merge_characters_inner, merge_sources, hT, hS, hctm,
    hcsm, Option.isSome_none, Bool.false_eq_true, if_false, if_neg hTS,
    recalculate_merged_stats, char_ids_for_merged, hmsi, update_coin_level]
  rfl

/-- What unmerging the lone source right after such a merge leaves behind:
the pointer is cleared and the former target's coin_level is recomputed over
the target alone. -/
theorem unmerge_single_eq (st : Store) (S T : Nat) (cs : Character)
    (hTS : S ≠ T)
    (hall : ∀ p ∈ st.characters, p.2.merged_into = none)
    (hS : get_character_by_id st S = some cs) :
    unmerge_character
        (updateChar (updateChar st S (fun c => { c with merged_into := some T })) T
          (fun c => { c with coin_level := trainer_rank_sum st [T, S] })) S =
      (updateChar
        (updateChar
          (updateChar (updateChar st S (fun c => { c with merged_into := some T })) T
            (fun c => { c with coin_level := trainer_rank_sum st [T, S] }))
          S (fun c => { c with merged_into := none }))
        T (fun c => { c with coin_level := trainer_rank_sum st [T] }), none) := by
  have hgS1 : get_character_by_id
      (updateChar (updateChar st S (fun c => { c with merged_into := some T })) T
        (fun c => { c with coin_level := trainer_rank_sum st [T, S] })) S =
      some { cs with merged_into := some T } := by
    rw [get_character_by_id_updateChar_other _ T S _ hTS,
      get_character_by_id_updateChar_self, hS, Option.map_some']
  have hall3 : ∀ p ∈ (updateChar
      (updateChar (updateChar st S (fun c => { c with merged_into := some T })) T
        (fun c => { c with coin_level := trainer_rank_sum st [T, S] }))
      S (fun c => { c with merged_into := none })).characters,
      p.2.merged_into = none := by
    intro p hp
    rw [updateChar_characters_map, updateChar_characters_map, updateChar_characters_map,
      List.map_map, List.map_map] at hp
    obtain ⟨q, hq, rfl⟩ := List.mem_map.mp hp
    simp only [Function.comp_apply]
    by_cases h1 : q.1 = S
    · simp [h1, hTS]
    · by_cases h2 : q.1 = T
      · simp [h1, h2, Ne.symm hTS, hall q hq]
      · simp [h1, h2, hall q hq]
  have hmsi3 : merged_source_ids (updateChar
      (updateChar (updateChar st S (fun c => { c with merged_into := some T })) T
        (fun c => { c with coin_level := trainer_rank_sum st [T, S] }))
      S (fun c => { c with merged_into := none })) T = [] :=
    merged_source_ids_nil _ T hall3
  simp only [unmerge_character, unmerge_character_inner, hgS1,
    recalculate_merged_stats, char_ids_for_merged, hmsi3, update_coin_level]
  rfl

/-- C1: merge followed immediately by unmerge, on a store of unmerged rows
with distinct ids.  The merge succeeds and the target's merged read-through
view reports every scalar counter as the sum of the two rows (Character.absorb
is the summing step of get_character_merged).  The unmerge succeeds, restores
the source row exactly, and restores every field of the target except
coin_level, which merge and unmerge both recompute as a trainer-rank sum — so
the target's own-row view is restored exactly precisely when its pre-merge
coin_level already equalled its own trainer-rank sum.  Every other table and
every other characters row is untouched.  The claim's unconditional exact
restore of the target's own row fails: see the counterexample. -/
theorem c1_merge_unmerge_round_trip (st : Store) (S T : Nat) (ct cs : Character)
    (hTS : S ≠ T)
    (hall : ∀ p ∈ st.characters, p.2.merged_into = none)
    (hnd : (st.characters.map Prod.fst).Nodup)
    (hT : get_character_by_id st T = some ct)
    (hS : get_character_by_id st S = some cs) :
    ∃ m1 u : Store,
      merge_characters st [S] T = (m1, none) ∧
      get_character_merged m1 T =
        some { ct.absorb cs with coin_level := trainer_rank_sum st [T, S] } ∧
      unmerge_character m1 S = (u, none) ∧
      get_character_by_id u S = some cs ∧
      get_character_by_id u T = some { ct with coin_level := trainer_rank_sum st [T] } ∧
      (ct.coin_level = trainer_rank_sum st [T] → get_character_by_id u T = some ct) ∧
      u.kills = st.kills ∧ u.trainers = st.trainers ∧ u.lastys = st.lastys ∧
      u.pets = st.pets ∧ u.log_files = st.log_files ∧ u.log_lines = st.log_lines ∧
      ∀ j, j ≠ S → j ≠ T → get_character_by_id u j = get_character_by_id st j := by
  have hcsm : cs.merged_into = none := by
    obtain ⟨p, hfind, hp2⟩ := Option.map_eq_some'.mp hS
    exact hp2 ▸ hall p (List.mem_of_find?_eq_some hfind)
  have hmemS : S ∈ st.characters.map Prod.fst := by
    obtain ⟨p, hfind, hp2⟩ := Option.map_eq_some'.mp hS
    have h1 : p.1 = S := by simpa using List.find?_some hfind
    exact h1 ▸ List.mem_map_of_mem Prod.fst (List.mem_of_find?_eq_some hfind)
  have hmerge := merge_single_eq st S T ct cs hTS hall hnd hT hS
  have hunmerge := unmerge_single_eq st S T cs hTS hall hS
  have hgT1 : get_character_by_id
      (updateChar (updateChar st S (fun c => { c with merged_into := some T })) T
        (fun c => { c with coin_level := trainer_rank_sum st [T, S] })) T =
      some { ct with coin_level := trainer_rank_sum st [T, S] } := by
    rw [get_character_by_id_updateChar_self,
      get_character_by_id_updateChar_other st S T _ (Ne.symm hTS), hT, Option.map_some']
  have hgS1 : get_character_by_id
      (updateChar (updateChar st S (fun c => { c with merged_into := some T })) T
        (fun c => { c with coin_level := trainer_rank_sum st [T, S] })) S =
      some { cs with merged_into := some T } := by
    rw [get_character_by_id_updateChar_other _ T S _ hTS,
      get_character_by_id_updateChar_self, hS, Option.map_some']
  have hmsi1 : merged_source_ids
      (updateChar st S (fun c => { c with merged_into := some T })) T = [S] :=
    filter_ptr_update S T (fun c => { c with merged_into := some T })
      (fun c => rfl) st.characters hall hnd hmemS
  have hmsiM1 : merged_source_ids
      (updateChar (updateChar st S (fun c => { c with merged_into := some T })) T
        (fun c => { c with coin_level := trainer_rank_sum st [T, S] })) T = [S] :=
    (merged_source_ids_updateChar
      (updateChar st S (fun c => { c with merged_into := some T })) T T
      (fun c => { c with coin_level := trainer_rank_sum st [T, S] })
      (fun c => rfl)).trans hmsi1
  have hview : get_character_merged
      (updateChar (updateChar st S (fun c => { c with merged_into := some T })) T
        (fun c => { c with coin_level := trainer_rank_sum st [T, S] })) T =
      some { ct.absorb cs with coin_level := trainer_rank_sum st [T, S] } := by
    simp only [get_character_merged, hmsiM1, hgT1, hgS1, char_ids_for_merged,
      List.isEmpty_cons, Bool.false_eq_true, if_false, List.foldl_cons, List.foldl_nil]
    rfl
  have hgUS : get_character_by_id
      (updateChar
        (updateChar
          (updateChar (updateChar st S (fun c => { c with merged_into := some T })) T
            (fun c => { c with coin_level := trainer_rank_sum st [T, S] }))
          S (fun c => { c with merged_into := none }))
        T (fun c => { c with coin_level := trainer_rank_sum st [T] })) S = some cs := by
    rw [get_character_by_id_updateChar_other _ T S _ hTS,
      get_character_by_id_updateChar_self, hgS1, Option.map_some']
    exact congrArg some (clear_merged_eq cs hcsm)
  have hgUT : get_character_by_id
      (updateChar
        (updateChar
          (updateChar (updateChar st S (fun c => { c with merged_into := some T })) T
            (fun c => { c with coin_level := trainer_rank_sum st [T, S] }))
          S (fun c => { c with merged_into := none }))
        T (fun c => { c with coin_level := trainer_rank_sum st [T] })) T =
      some { ct with coin_level := trainer_rank_sum st [T] } := by
    rw [get_character_by_id_updateChar_self,
      get_character_by_id_updateChar_other _ S T _ (Ne.symm hTS), hgT1, Option.map_some']
  have hframe : ∀ j, j ≠ S → j ≠ T → get_character_by_id
      (updateChar
        (updateChar
          (updateChar (updateChar st S (fun c => { c with merged_into := some T })) T
            (fun c => { c with coin_level := trainer_rank_sum st [T, S] }))
          S (fun c => { c with merged_into := none }))
        T (fun c => { c with coin_level := trainer_rank_sum st [T] })) j =
      get_character_by_id st j := by
    intro j hjS hjT
    rw [get_character_by_id_updateChar_other _ T j _ hjT,
      get_character_by_id_updateChar_other _ S j _ hjS,
      get_character_by_id_updateChar_other _ T j _ hjT,
      get_character_by_id_updateChar_other _ S j _ hjS]
  refine ⟨_, _, hmerge, hview, hunmerge, hgUS, hgUT, fun hcl => ?_,
    rfl, rfl, rfl, rfl, rfl, rfl, hframe⟩
  rw [hgUT]
  exact congrArg some (set_coin_eq ct _ hcl)

/-- Counterexample to C1's unconditional round trip: a target whose stored
coin_level (7) differs from its trainer-rank sum (0, no trainer rows).  Merge
and unmerge both succeed, yet the target's own row comes back with coin_level
0 — recalculate_merged_stats overwrote it on the way — so the round trip is
not lossless for the target's own-row view. -/
theorem c1_coin_level_counterexample :
    (merge_characters
        (update_coin_level
          (get_or_create_character
            (get_or_create_character Store.empty (str "Tess")).1 (str "Sol")).1 1 7)
        [2] 1).2 = none ∧
    (unmerge_character
        (merge_characters
          (update_coin_level
            (get_or_create_character
              (get_or_create_character Store.empty (str "Tess")).1 (str "Sol")).1 1 7)
          [2] 1).1 2).2 = none ∧
    ∃ c c' : Character,
      get_character_by_id
          (update_coin_level
            (get_or_create_character
              (get_or_create_character Store.empty (str "Tess")).1 (str "Sol")).1 1 7)
          1 = some c ∧
      c.coin_level = 7 ∧
      get_character_by_id
          (unmerge_character
            (merge_characters
              (update_coin_level
                (get_or_create_character
                  (get_or_create_character Store.empty (str "Tess")).1 (str "Sol")).1 1 7)
              [2] 1).1 2).1 1 = some c' ∧
      c'.coin_level = 0 :=
  ⟨rfl, rfl, _, _, rfl, rfl, rfl, rfl⟩

/-- Witness for C1: on a two-character store with no trainer rows, the merge
and the unmerge both succeed and both rows come back exactly — here the
target's coin_level, 0, already equals its trainer-rank sum. -/
theorem c1_round_trip_witness :
    ∃ m1 u : Store,
      merge_characters
          (get_or_create_character
            (get_or_create_character Store.empty (str "Tess")).1 (str "Sol")).1
          [2] 1 = (m1, none) ∧
      unmerge_character m1 2 = (u, none) ∧
      get_character_by_id u 2 = some (Character.new (str "Sol")) ∧
      get_character_by_id u 1 = some (Character.new (str "Tess")) := by
  obtain ⟨m1, u, h1, _, h3, h4, _, h6, _⟩ :=
    c1_merge_unmerge_round_trip
      (get_or_create_character
        (get_or_create_character Store.empty (str "Tess")).1 (str "Sol")).1
      2 1 (Character.new (str "Tess")) (Character.new (str "Sol"))
      (by decide) (by decide) (by decide) rfl rfl
  exact ⟨m1, u, h1, h3, h4, h6 rfl⟩

/-- upsert_kill leaves the scanned-file ledger unchanged. -/
theorem upsert_kill_log_files (st : Store) (charId : Nat) (creature : Str)
    (f : KillField) (value : Int) (date : Str) :
    (upsert_kill st charId creature f value date).log_files = st.log_files := by
  unfold upsert_kill
  split <;> rfl

/-- upsert_trainer_rank leaves the scanned-file ledger unchanged. -/
theorem upsert_trainer_rank_log_files (st : Store) (charId : Nat) (t d : Str) :
    (upsert_trainer_rank st charId t d).log_files = st.log_files := by
  unfold upsert_trainer_rank
  split <;> rfl

/-- upsert_apply_learning leaves the scanned-file ledger unchanged. -/
theorem upsert_apply_learning_log_files (st : Store) (charId : Nat) (t d : Str) (a : Int) :
    (upsert_apply_learning st charId t d a).log_files = st.log_files := by
  unfold upsert_apply_learning
  split <;> rfl

/-- upsert_apply_learning_unknown leaves the scanned-file ledger unchanged. -/
theorem upsert_apply_learning_unknown_log_files (st : Store) (charId : Nat) (t d : Str) :
    (upsert_apply_learning_unknown st charId t d).log_files = st.log_files := by
  unfold upsert_apply_learning_unknown
  split <;> rfl

/-- upsert_lasty leaves the scanned-file ledger unchanged. -/
theorem upsert_lasty_log_files (st : Store) (charId : Nat) (c t d : Str) :
    (upsert_lasty st charId c t d).log_files = st.log_files := by
  unfold upsert_lasty
  split <;> rfl

/-- finish_lasty leaves the scanned-file ledger unchanged. -/
theorem finish_lasty_log_files (st : Store) (charId : Nat) (c t d : Str) :
    (finish_lasty st charId c t d).log_files = st.log_files := by
  unfold finish_lasty
  split <;> rfl

/-- complete_lasty leaves the scanned-file ledger unchanged. -/
theorem complete_lasty_log_files (st : Store) (charId : Nat) :
    (complete_lasty st charId).log_files = st.log_files := by
  unfold complete_lasty
  split <;> rfl

/-- Row updates on the characters table leave the scanned-file ledger
unchanged. -/
theorem updateChar_log_files (st : Store) (id : Nat) (f : Character → Character) :
    (updateChar st id f).log_files = st.log_files := rfl

/-- increment_character_field leaves the scanned-file ledger unchanged. -/
theorem increment_character_field_log_files (st : Store) (id : Nat) (f : CharField)
    (a : Int) : (increment_character_field st id f a).log_files = st.log_files := rfl

/-- update_start_date leaves the scanned-file ledger unchanged. -/
theorem update_start_date_log_files (st : Store) (id : Nat) (d : Str) :
    (update_start_date st id d).log_files = st.log_files := rfl

/-- update_character_profession leaves the scanned-file ledger unchanged. -/
theorem update_character_profession_log_files (st : Store) (id : Nat) (p : Str) :
    (update_character_profession st id p).log_files = st.log_files := rfl

/-- With no fault scheduled, a database write plainly applies its store
function. -/
theorem dbWrite_none (w : Store → Store) (st : Store) :
    dbWrite w { store := st, fuel := none } = ({ store := w st, fuel := none }, none) := rfl

/-- With no fault scheduled, a one-write arm plainly applies its store
function. -/
theorem writeArm_none (w : Store → Store) (st : Store) (n : Nat) :
    writeArm w { store := st, fuel := none } n =
      ({ store := w st, fuel := none }, none, n) := rfl

/-- With no fault scheduled, a two-write arm plainly composes its store
functions. -/
theorem writeArm2_none (w1 w2 : Store → Store) (st : Store) (n : Nat) :
    writeArm2 w1 w2 { store := st, fuel := none } n =
      ({ store := w2 (w1 st), fuel := none }, none, n) := rfl

/-- With no fault scheduled, applying any event succeeds, keeps the database
fault-free, and never touches the scanned-file ledger. -/
theorem apply_event_fuel_none (creatureDb : CreatureDb) (st : Store) (charId : Nat)
    (charName dateStr : Str) (ev : LogEvent) :
    (apply_event creatureDb { store := st, fuel := none } charId charName dateStr ev).2.1 =
      none ∧
    (apply_event creatureDb { store := st, fuel := none } charId charName dateStr ev).1.fuel =
      none ∧
    (apply_event creatureDb { store := st, fuel := none } charId charName dateStr
        ev).1.store.log_files = st.log_files := by
  cases ev with
  | ignored => exact ⟨rfl, rfl, rfl⟩
  | coinBalance a => exact ⟨rfl, rfl, rfl⟩
  | experienceGain => exact ⟨rfl, rfl, rfl⟩
  | clanningChange a b => exact ⟨rfl, rfl, rfl⟩
  | disconnect => exact ⟨rfl, rfl, rfl⟩
  | studyProgress a b => exact ⟨rfl, rfl, rfl⟩
  | studyAbandon a => exact ⟨rfl, rfl, rfl⟩
  | recovered a => exact ⟨rfl, rfl, rfl⟩
  | login name =>
    by_cases hd : dateStr.isEmpty = true
    · simp [apply_event, hd]
    · simp [apply_event, hd, writeArm_none, update_start_date_log_files]
  | reconnect name =>
    by_cases hd : dateStr.isEmpty = true
    · simp [apply_event, hd]
    · simp [apply_event, hd, writeArm_none, update_start_date_log_files]
  | soloKill creature verb =>
    exact ⟨rfl, rfl, upsert_kill_log_files st charId creature _ _ dateStr⟩
  | assistedKill creature verb =>
    exact ⟨rfl, rfl, upsert_kill_log_files st charId creature _ _ dateStr⟩
  | fallen name cause =>
    by_cases hm : eq_ignore_ascii_case name charName = true
    · simp [apply_event, hm, writeArm2_none, increment_character_field_log_files,
        upsert_kill_log_files]
    · simp [apply_event, hm]
  | firstDepart => exact ⟨rfl, rfl, rfl⟩
  | depart count => exact ⟨rfl, rfl, rfl⟩
  | trainerRank t msg =>
    exact ⟨rfl, rfl, upsert_trainer_rank_log_files st charId t dateStr⟩
  | coinsPickedUp amount => exact ⟨rfl, rfl, rfl⟩
  | lootShare item worth amount lootType =>
    cases lootType with
    | fur => exact ⟨rfl, rfl, rfl⟩
    | blood => exact ⟨rfl, rfl, rfl⟩
    | mandible => exact ⟨rfl, rfl, rfl⟩
    | other => exact ⟨rfl, rfl, rfl⟩
  | studyCharge amount => exact ⟨rfl, rfl, rfl⟩
  | bellBroken => exact ⟨rfl, rfl, rfl⟩
  | bellUsed => exact ⟨rfl, rfl, rfl⟩
  | chainBreak => exact ⟨rfl, rfl, rfl⟩
  | chainShatter => exact ⟨rfl, rfl, rfl⟩
  | chainSnap => exact ⟨rfl, rfl, rfl⟩
  | chainUsed t => exact ⟨rfl, rfl, rfl⟩
  | shieldstoneUsed => exact ⟨rfl, rfl, rfl⟩
  | shieldstoneBroken => exact ⟨rfl, rfl, rfl⟩
  | etherealPortalOpened => exact ⟨rfl, rfl, rfl⟩
  | etherealPortalStoneUsed => exact ⟨rfl, rfl, rfl⟩
  | karmaReceived good =>
    cases good
    · exact ⟨rfl, rfl, rfl⟩
    · exact ⟨rfl, rfl, rfl⟩
  | esteemGain => exact ⟨rfl, rfl, rfl⟩
  | professionAnnouncement name profession =>
    by_cases hm : eq_ignore_ascii_case name charName = true
    · simp [apply_event, hm, writeArm_none, update_character_profession_log_files]
    · simp [apply_event, hm]
  | untrained => exact ⟨rfl, rfl, rfl⟩
  | applyLearningRank characterName trainerName isFull =>
    by_cases hm : eq_ignore_ascii_case characterName charName = true
    · cases isFull
      · simp [apply_event, hm, writeArm_none, upsert_apply_learning_unknown_log_files]
      · simp [apply_event, hm, writeArm_none, upsert_apply_learning_log_files]
    · simp [apply_event, hm]
  | lastyBeginStudy creature lastyType =>
    exact ⟨rfl, rfl, upsert_lasty_log_files st charId creature lastyType dateStr⟩
  | lastyProgress creature lastyType =>
    exact ⟨rfl, rfl, upsert_lasty_log_files st charId creature lastyType dateStr⟩
  | lastyFinished creature lastyType =>
    exact ⟨rfl, rfl, finish_lasty_log_files st charId creature lastyType dateStr⟩
  | lastyCompleted t =>
    exact ⟨rfl, rfl, complete_lasty_log_files st charId⟩

/-- With no fault scheduled, the line loop runs to completion, stays
fault-free, and never touches the scanned-file ledger. -/
theorem scan_lines_fuel_none (creatureDb : CreatureDb) (trainerDb : TrainerDb)
    (charId : Nat) (charName filePath : Str) (il : Bool) :
    ∀ (lines : List Str) (st : Store) (acc : LineAcc),
      ∃ st' acc',
        scan_lines creatureDb trainerDb { store := st, fuel := none } charId charName
            filePath il lines acc = ({ store := st', fuel := none }, Except.ok acc') ∧
        st'.log_files = st.log_files := by
  intro lines
  induction lines with
  | nil => intro st acc; exact ⟨st, acc, rfl, rfl⟩
  | cons line rest ih =>
    intro st acc
    have hp := apply_event_fuel_none creatureDb st charId charName (lineDate line)
      (classify_line trainerDb (lineMessage line))
    simp only [scan_lines]
    cases happ : apply_event creatureDb { store := st, fuel := none } charId charName
        (lineDate line) (classify_line trainerDb (lineMessage line)) with
    | mk d1 p =>
      obtain ⟨e, delta⟩ := p
      obtain ⟨st1, f1⟩ := d1
      simp only [happ] at hp
      obtain ⟨he, hf, hlog⟩ := hp
      subst he
      subst hf
      obtain ⟨st', acc', heq, hlog'⟩ := ih st1
        { lineAccUpd trainerDb charId filePath il line acc with
            events_found :=
              (lineAccUpd trainerDb charId filePath il line acc).events_found + delta }
      exact ⟨st', acc', heq, hlog'.trans hlog⟩

/-- With no fault scheduled, scanning one file's bytes succeeds, stays
fault-free, and never touches the scanned-file ledger. -/
theorem scan_bytes_fuel_none (creatureDb : CreatureDb) (trainerDb : TrainerDb)
    (st : Store) (bytes : List Nat) (charId : Nat) (charName filePath : Str)
    (il : Bool) :
    ∃ st' fr,
      scan_bytes creatureDb trainerDb { store := st, fuel := none } bytes charId
          charName filePath il = ({ store := st', fuel := none }, Except.ok fr) ∧
      st'.log_files = st.log_files := by
  obtain ⟨st1, acc, heq, hlog⟩ := scan_lines_fuel_none creatureDb trainerDb charId
    charName filePath il (linesOf (decode_log_bytes bytes)) st LineAcc.init
  simp only [scan_bytes, heq, dbWrite_none]
  by_cases hfl : acc.found_login = true
  · simp only [hfl, if_true]
    by_cases hidx : (il ∧ ¬acc.log_lines.isEmpty)
    · simp only [if_pos hidx, dbWrite_none]
      exact ⟨_, _, rfl, hlog⟩
    · simp only [if_neg hidx]
      exact ⟨_, _, rfl, hlog⟩
  · simp only [Bool.not_eq_true] at hfl
    simp only [hfl, if_false]
    cases hfd : acc.first_date with
    | some ts =>
      simp only [dbWrite_none]
      by_cases hidx : (il ∧ ¬acc.log_lines.isEmpty)
      · simp only [if_pos hidx, dbWrite_none]
        exact ⟨_, _, rfl, hlog⟩
      · simp only [if_neg hidx]
        exact ⟨_, _, rfl, hlog⟩
    | none =>
      by_cases hidx : (il ∧ ¬acc.log_lines.isEmpty)
      · simp only [if_pos hidx, dbWrite_none]
        exact ⟨_, _, rfl, hlog⟩
      · simp only [if_neg hidx]
        exact ⟨_, _, rfl, hlog⟩

/-- A path stays recorded when the ledger only grows. -/
theorem is_log_scanned_of_append (st st' : Store) (ext : List LogFile) (p : Str)
    (h : st'.log_files = st.log_files ++ ext) (hp : is_log_scanned st p = true) :
    is_log_scanned st' p = true := by
  unfold is_log_scanned at hp ⊢
  rw [h, List.any_append, hp]
  rfl

/-- A content hash stays recorded when the ledger only grows. -/
theorem is_hash_scanned_of_append (st st' : Store) (ext : List LogFile) (h2 : List Nat)
    (h : st'.log_files = st.log_files ++ ext) (hp : is_hash_scanned st h2 = true) :
    is_hash_scanned st' h2 = true := by
  unfold is_hash_scanned at hp ⊢
  rw [h, List.any_append, hp]
  rfl

/-- mark_log_scanned only ever appends to the ledger. -/
theorem mark_log_scanned_log_files (st : Store) (cid : Nat) (p : Str) (h : List Nat)
    (dt : Str) :
    ∃ ext, (mark_log_scanned st cid p h dt).log_files = st.log_files ++ ext := by
  unfold mark_log_scanned
  split
  · exact ⟨[], (List.append_nil _).symm⟩
  · exact ⟨[{ character_id := cid, file_path := p, content_hash := h, date_read := dt }], rfl⟩

/-- After mark_log_scanned, the marked path is recorded. -/
theorem is_log_scanned_mark_self (st : Store) (cid : Nat) (p : Str) (h : List Nat)
    (dt : Str) : is_log_scanned (mark_log_scanned st cid p h dt) p = true := by
  unfold mark_log_scanned
  by_cases hx : is_log_scanned st p = true
  · rw [if_pos hx]
    exact hx
  · rw [if_neg hx]
    unfold is_log_scanned
    rw [List.any_append]
    simp

/-- With force off, a file list of path- or hash-recorded files is skipped
wholesale: the database is untouched and only the skipped counter moves. -/
theorem scan_files_inner_skip_all (creatureDb : CreatureDb) (trainerDb : TrainerDb)
    (charId : Nat) (charName now : Str) (il : Bool) :
    ∀ (files : List FileEntry) (d : DbState) (res : ScanResult),
      (∀ f ∈ files, is_log_scanned d.store f.path = true ∨
        ∃ b, f.read = some b ∧ is_hash_scanned d.store (hash_bytes b) = true) →
      scan_files_inner creatureDb trainerDb d false charId charName now il files res =
        (d, Except.ok { res with skipped := res.skipped + files.length }) := by
  intro files
  induction files with
  | nil => intro d res _; rfl
  | cons f rest ih =>
    intro d res hyp
    have harith : res.skipped + (f :: rest).length = res.skipped + 1 + rest.length := by
      simp [List.length_cons]
      omega
    simp only [scan_files_inner]
    rw [harith]
    rcases hyp f (List.mem_cons_self f rest) with hpath | ⟨b, hread, hhash⟩
    · rw [if_pos ⟨trivial, hpath⟩]
      rw [ih d { res with skipped := res.skipped + 1 }
        (fun g hg => hyp g (List.mem_cons_of_mem f hg))]
    · by_cases hp : is_log_scanned d.store f.path = true
      · rw [if_pos ⟨trivial, hp⟩]
        rw [ih d { res with skipped := res.skipped + 1 }
          (fun g hg => hyp g (List.mem_cons_of_mem f hg))]
      · rw [if_neg (fun hh => hp hh.2)]
        simp only [hread]
        rw [if_pos ⟨trivial, hhash⟩]
        rw [ih d { res with skipped := res.skipped + 1 }
          (fun g hg => hyp g (List.mem_cons_of_mem f hg))]

/-- With force off, a file list whose every entry is path-recorded,
unreadable, or hash-recorded leaves the database untouched and scans zero
files: every entry lands in skipped or errors. -/
theorem scan_files_inner_no_new (creatureDb : CreatureDb) (trainerDb : TrainerDb)
    (charId : Nat) (charName now : Str) (il : Bool) :
    ∀ (files : List FileEntry) (d : DbState) (res : ScanResult),
      (∀ f ∈ files, is_log_scanned d.store f.path = true ∨ f.read = none ∨
        ∃ b, f.read = some b ∧ is_hash_scanned d.store (hash_bytes b) = true) →
      ∃ res',
        scan_files_inner creatureDb trainerDb d false charId charName now il files res =
          (d, Except.ok res') ∧
        res'.files_scanned = res.files_scanned ∧
        res'.lines_parsed = res.lines_parsed ∧
        res'.events_found = res.events_found ∧
        res'.characters = res.characters := by
  intro files
  induction files with
  | nil => intro d res _; exact ⟨res, rfl, rfl, rfl, rfl, rfl⟩
  | cons f rest ih =>
    intro d res hyp
    simp only [scan_files_inner]
    by_cases hp : is_log_scanned d.store f.path = true
    · rw [if_pos ⟨trivial, hp⟩]
      obtain ⟨res', heq, h1, h2, h3, h4⟩ := ih d { res with skipped := res.skipped + 1 }
        (fun g hg => hyp g (List.mem_cons_of_mem f hg))
      exact ⟨res', heq, h1, h2, h3, h4⟩
    · rw [if_neg (fun hh => hp hh.2)]
      rcases hyp f (List.mem_cons_self f rest) with hpath | hnone | ⟨b, hread, hhash⟩
      · exact absurd hpath hp
      · simp only [hnone]
        obtain ⟨res', heq, h1, h2, h3, h4⟩ := ih d { res with errors := res.errors + 1 }
          (fun g hg => hyp g (List.mem_cons_of_mem f hg))
        exact ⟨res', heq, h1, h2, h3, h4⟩
      · simp only [hread]
        rw [if_pos ⟨trivial, hhash⟩]
        obtain ⟨res', heq, h1, h2, h3, h4⟩ := ih d { res with skipped := res.skipped + 1 }
          (fun g hg => hyp g (List.mem_cons_of_mem f hg))
        exact ⟨res', heq, h1, h2, h3, h4⟩

/-- With no fault scheduled, a whole file walk succeeds, the ledger only
grows, and afterwards every offered file is recorded by path, was unreadable,
or is recorded by content hash. -/
theorem scan_files_inner_fuel_none (creatureDb : CreatureDb) (trainerDb : TrainerDb)
    (force : Bool) (charId : Nat) (charName now : Str) (il : Bool) :
    ∀ (files : List FileEntry) (st : Store) (res : ScanResult),
      ∃ st' res',
        scan_files_inner creatureDb trainerDb { store := st, fuel := none } force charId
            charName now il files res = ({ store := st', fuel := none }, Except.ok res') ∧
        (∃ ext, st'.log_files = st.log_files ++ ext) ∧
        ∀ f ∈ files,
          is_log_scanned st' f.path = true ∨ f.read = none ∨
          ∃ b, f.read = some b ∧ is_hash_scanned st' (hash_bytes b) = true := by
  intro files
  induction files with
  | nil =>
    intro st res
    exact ⟨st, res, rfl, ⟨[], (List.append_nil _).symm⟩,
      fun f hf => absurd hf (List.not_mem_nil f)⟩
  | cons f rest ih =>
    intro st res
    simp only [scan_files_inner]
    by_cases hc1 : (force = false ∧ is_log_scanned st f.path = true)
    · rw [if_pos hc1]
      obtain ⟨st', res', heq, ⟨ext, hext⟩, hpost⟩ := ih st { res with skipped := res.skipped + 1 }
      refine ⟨st', res', heq, ⟨ext, hext⟩, ?_⟩
      intro g hg
      rcases List.mem_cons.mp hg with rfl | hg'
      · exact Or.inl (is_log_scanned_of_append st st' ext g.path hext hc1.2)
      · exact hpost g hg'
    · rw [if_neg hc1]
      cases hr : f.read with
      | none =>
        obtain ⟨st', res', heq, hextp, hpost⟩ := ih st { res with errors := res.errors + 1 }
        refine ⟨st', res', heq, hextp, ?_⟩
        intro g hg
        rcases List.mem_cons.mp hg with rfl | hg'
        · exact Or.inr (Or.inl hr)
        · exact hpost g hg'
      | some bytes =>
        dsimp only
        by_cases hc2 : (force = false ∧ is_hash_scanned st (hash_bytes bytes) = true)
        · rw [if_pos hc2]
          obtain ⟨st', res', heq, ⟨ext, hext⟩, hpost⟩ :=
            ih st { res with skipped := res.skipped + 1 }
          refine ⟨st', res', heq, ⟨ext, hext⟩, ?_⟩
          intro g hg
          rcases List.mem_cons.mp hg with rfl | hg'
          · exact Or.inr (Or.inr ⟨bytes, hr,
              is_hash_scanned_of_append st st' ext _ hext hc2.2⟩)
          · exact hpost g hg'
        · rw [if_neg hc2]
          obtain ⟨st1, fr, hsb, hlog1⟩ := scan_bytes_fuel_none creatureDb trainerDb st
            bytes charId charName f.path il
          simp only [hsb, dbWrite_none]
          obtain ⟨st', res', heq, ⟨ext, hext⟩, hpost⟩ :=
            ih (mark_log_scanned st1 charId f.path (hash_bytes bytes) now)
              { res with
                  files_scanned := res.files_scanned + 1
                  lines_parsed := res.lines_parsed + fr.lines_parsed
                  events_found := res.events_found + fr.events_found }
          obtain ⟨ext2, hext2⟩ :=
            mark_log_scanned_log_files st1 charId f.path (hash_bytes bytes) now
          refine ⟨st', res', heq, ⟨ext2 ++ ext, ?_⟩, ?_⟩
          · rw [hext, hext2, hlog1, List.append_assoc]
          · intro g hg
            rcases List.mem_cons.mp hg with rfl | hg'
            · exact Or.inl (is_log_scanned_of_append _ st' ext g.path hext
                (is_log_scanned_mark_self st1 charId g.path (hash_bytes bytes) now))
            · exact hpost g hg'

/-- C2: scanning is idempotent under the path and content-hash ledger.
First, with force off, a folder whose every file is already recorded by path
or by content hash is skipped wholesale: the result counts them all as
skipped, none as scanned, and the committed store is exactly the input
store.  Second, after any fault-free scan commits, running the scan again
with force off scans zero files, parses zero lines, finds zero events, and
returns the store it was given unchanged. -/
theorem c2_scan_idempotent (creatureDb : CreatureDb) (trainerDb : TrainerDb)
    (st : Store) (fuel : Option Nat) (force : Bool) (charId : Nat)
    (charName now : Str) (il : Bool) (files : List FileEntry) :
    ((∀ f ∈ files, is_log_scanned st f.path = true ∨
        ∃ b, f.read = some b ∧ is_hash_scanned st (hash_bytes b) = true) →
      scan_folder st fuel creatureDb trainerDb false charId charName now il files =
        (some { ScanResult.zero with skipped := files.length }, st)) ∧
    (∀ (res1 : ScanResult) (st1 : Store),
      scan_folder st none creatureDb trainerDb force charId charName now il files =
        (some res1, st1) →
      ∃ res2,
        scan_folder st1 none creatureDb trainerDb false charId charName now il files =
          (some res2, st1) ∧
        res2.files_scanned = 0 ∧ res2.lines_parsed = 0 ∧ res2.events_found = 0) := by
  constructor
  · intro hyp
    have hA := scan_files_inner_skip_all creatureDb trainerDb charId charName now il
      files { store := st, fuel := fuel } ScanResult.zero hyp
    simp only [scan_folder, hA]
    have hz : ScanResult.zero.skipped + files.length = files.length := Nat.zero_add _
    rw [hz]
  · intro res1 st1 hrun1
    obtain ⟨st', res', heq, hext, hpost⟩ := scan_files_inner_fuel_none creatureDb
      trainerDb force charId charName now il files st ScanResult.zero
    simp only [scan_folder, heq] at hrun1
    injection hrun1 with hres hst
    subst hst
    obtain ⟨res2, heq2, hfs, hlp, hef, _⟩ := scan_files_inner_no_new creatureDb
      trainerDb charId charName now il files { store := st', fuel := none }
      ScanResult.zero hpost
    refine ⟨res2, ?_, hfs, hlp, hef⟩
    simp only [scan_folder, heq2]

/-- Witness for C2: a one-file folder whose file is already recorded by path;
a rescan with force off scans zero files and hands the store back unchanged. -/
theorem c2_scan_witness :
    ∃ res2,
      scan_folder
          (mark_log_scanned Store.empty 1 (str "a.txt") (hash_bytes [65]) (str "2024"))
          none (fun _ => none) (fun _ => none) false 1 (str "Fen") (str "2024") false
          [{ path := str "a.txt", read := some [65] }] =
        (some res2,
          mark_log_scanned Store.empty 1 (str "a.txt") (hash_bytes [65]) (str "2024")) ∧
      res2.files_scanned = 0 ∧ res2.lines_parsed = 0 ∧ res2.events_found = 0 := by
  have h := c2_scan_idempotent (fun _ => none) (fun _ => none)
    (mark_log_scanned Store.empty 1 (str "a.txt") (hash_bytes [65]) (str "2024"))
    none false 1 (str "Fen") (str "2024") false
    [{ path := str "a.txt", read := some [65] }]
  have hypA : ∀ f ∈ [({ path := str "a.txt", read := some [65] } : FileEntry)],
      is_log_scanned
          (mark_log_scanned Store.empty 1 (str "a.txt") (hash_bytes [65]) (str "2024"))
          f.path = true ∨
      ∃ b, f.read = some b ∧
        is_hash_scanned
            (mark_log_scanned Store.empty 1 (str "a.txt") (hash_bytes [65]) (str "2024"))
            (hash_bytes b) = true := by
    intro f hf
    rw [List.mem_singleton] at hf
    subst hf
    exact Or.inl rfl
  exact h.2 { ScanResult.zero with skipped := 1 }
    (mark_log_scanned Store.empty 1 (str "a.txt") (hash_bytes [65]) (str "2024"))
    (h.1 hypA)

/-- Counterexample to C3's rollback half: a store error striking in the
middle of a file's events (the fault schedule allows one write, then fails
the next) is caught by the per-file match, counted as a file error, and the
scan still completes and commits — the first kill row written before the
fault survives in the returned store, which therefore differs from the
pre-scan store instead of being rolled back. -/
theorem c3_store_error_committed_counterexample :
    (scan_folder (get_or_create_character Store.empty (str "Fen")).1 (some 1)
        (fun _ => none) (fun _ => none) false 1 (str "Fen") (str "now") false
        [{ path := str "k.txt",
           read := some ((str "You slaughtered a Rat.\nYou slaughtered a Rat.\n").map
             Char.toNat) }]).1 =
      some { ScanResult.zero with errors := 1 } ∧
    (scan_folder (get_or_create_character Store.empty (str "Fen")).1 (some 1)
        (fun _ => none) (fun _ => none) false 1 (str "Fen") (str "now") false
        [{ path := str "k.txt",
           read := some ((str "You slaughtered a Rat.\nYou slaughtered a Rat.\n").map
             Char.toNat) }]).2.kills.length = 1 ∧
    (get_or_create_character Store.empty (str "Fen")).1.kills.length = 0 :=
  ⟨rfl, rfl, rfl⟩

/-- C3, amended: an unreadable file (its read returns none) that is not
skipped by the ledger is tolerated — the walk counts one error and moves to
the remaining files with the database untouched; and a store error that does
propagate out of the file walk makes scan_folder report failure and return
the original pre-scan store, the embedded rollback.  Store errors caught
inside a file's scan are the exception the counterexample exhibits. -/
theorem c3_io_tolerated_store_error_rolls_back (creatureDb : CreatureDb)
    (trainerDb : TrainerDb) (st : Store) (fuel : Option Nat) (force : Bool)
    (charId : Nat) (charName now : Str) (il : Bool) (f : FileEntry)
    (rest files : List FileEntry) (res : ScanResult) (d : DbState) :
    (f.read = none → ¬(force = false ∧ is_log_scanned d.store f.path = true) →
      scan_files_inner creatureDb trainerDb d force charId charName now il
          (f :: rest) res =
        scan_files_inner creatureDb trainerDb d force charId charName now il rest
          { res with errors := res.errors + 1 }) ∧
    (∀ (d' : DbState) (e : DbErr),
      scan_files_inner creatureDb trainerDb { store := st, fuel := fuel } force charId
          charName now il files ScanResult.zero = (d', Except.error e) →
      scan_folder st fuel creatureDb trainerDb force charId charName now il files =
        (none, st)) := by
  constructor
  · intro hr hskip
    simp only [scan_files_inner]
    rw [if_neg hskip]
    simp only [hr]
  · intro d' e h
    simp only [scan_folder, h]

/-- Witness for C3: an unreadable file in a fresh store is tolerated as one
error, and a ledger-write fault (one write allowed, the ledger write fails)
aborts the scan of a readable file and hands back the untouched store. -/
theorem c3_witness :
    scan_files_inner (fun _ => none) (fun _ => none) { store := Store.empty, fuel := none }
        false 1 (str "Fen") (str "now") false
        [{ path := str "x.txt", read := none }] ScanResult.zero =
      scan_files_inner (fun _ => none) (fun _ => none) { store := Store.empty, fuel := none }
        false 1 (str "Fen") (str "now") false []
        { ScanResult.zero with errors := ScanResult.zero.errors + 1 } ∧
    scan_folder Store.empty (some 1) (fun _ => none) (fun _ => none) false 1 (str "Fen")
        (str "now") false [{ path := str "y.txt", read := some [] }] =
      (none, Store.empty) := by
  have h := c3_io_tolerated_store_error_rolls_back (fun _ => none) (fun _ => none)
    Store.empty (some 1) false 1 (str "Fen") (str "now") false
    { path := str "x.txt", read := none } []
    [{ path := str "y.txt", read := some [] }] ScanResult.zero
    { store := Store.empty, fuel := none }
  exact ⟨h.1 rfl (by decide),
    h.2 (scan_files_inner (fun _ => none) (fun _ => none)
        { store := Store.empty, fuel := some 1 } false 1 (str "Fen") (str "now") false
        [{ path := str "y.txt", read := some [] }] ScanResult.zero).1
      DbErr.storeFault rfl⟩

end Amanuensis
